import Mathlib

/-!
Verification development for the ceelaxy combat core (bullets, units,
player, movement oscillation, trail particles, game statistics).

Modelling conventions:
* C `float`/`double` values are modelled as exact rationals (`ℚ`);
  the properties checked here are order/sign/arithmetic facts that do not
  depend on rounding.
* C `uint8_t` counters (health, energy) are modelled as `ℕ` together with
  the explicit truncation `% 256` at the single place a float is converted
  into a `uint8_t` field (`newBulletParameters`).
* `rand()`-driven draws are modelled by an oracle stream `rng : ℕ → ℚ`
  of uniform values in `[0, 1]` together with a cursor that advances once
  per draw, so every random decision of the C code is explicit.
* Trigonometric functions (`cosf`, `sinf`) and the `DEG2RAD` constant are
  external to the combat logic; they are passed in as an oracle `Trig`,
  exactly where the source calls them.  No theorem below depends on any
  property of the oracle.
* Doubly linked pool lists (`BulletList`, `UnitList`) are modelled by the
  sequence of their nodes in forward (`head` → `tail`) order plus the
  bookkeeping fields (`length`, `idx`, ...); the prev/next pointers of a
  well-formed list are determined by that sequence.
* Render-only resources (textures, GPU models, sprite sheets, explosion
  emitters) are opaque handles never read by the verified logic; they are
  omitted from the corresponding structures.
-/

namespace Ceelaxy

/-- 3D vector over `ℚ` (raylib `Vector3`). -/
structure Vec3 where
  x : ℚ
  y : ℚ
  z : ℚ
deriving DecidableEq

/-- raylib `Vector3Add`. -/
def vadd (a b : Vec3) : Vec3 := ⟨a.x + b.x, a.y + b.y, a.z + b.z⟩

/-- raylib `Vector3Scale`. -/
def vscale (v : Vec3) (s : ℚ) : Vec3 := ⟨v.x * s, v.y * s, v.z * s⟩

/-- raylib `Vector3Min` (componentwise minimum). -/
def vmin (a b : Vec3) : Vec3 := ⟨min a.x b.x, min a.y b.y, min a.z b.z⟩

/-- raylib `Vector3Max` (componentwise maximum). -/
def vmax (a b : Vec3) : Vec3 := ⟨max a.x b.x, max a.y b.y, max a.z b.z⟩

/-- raylib `BoundingBox`: axis-aligned box given by two corners. -/
structure BoundingBox where
  min : Vec3
  max : Vec3
deriving DecidableEq

/-- raylib `CheckCollisionBoxes`: AABB overlap test on all three axes. -/
def CheckCollisionBoxes (box1 box2 : BoundingBox) : Bool :=
  (box1.max.x ≥ box2.min.x) && (box1.min.x ≤ box2.max.x) &&
  (box1.max.y ≥ box2.min.y) && (box1.min.y ≤ box2.max.y) &&
  (box1.max.z ≥ box2.min.z) && (box1.min.z ≤ box2.max.z)

/-- Oracle for the trigonometric externals: `cos`/`sin` as called by the
source (`cosf`, `sinf`) and the value of raylib's `DEG2RAD` constant. -/
structure Trig where
  cos : ℚ → ℚ
  sin : ℚ → ℚ
  deg2rad : ℚ

/-- raylib `Matrix` (fields named as in raymath, column-major). -/
structure Matrix where
  m0 : ℚ
  m4 : ℚ
  m8 : ℚ
  m12 : ℚ
  m1 : ℚ
  m5 : ℚ
  m9 : ℚ
  m13 : ℚ
  m2 : ℚ
  m6 : ℚ
  m10 : ℚ
  m14 : ℚ
  m3 : ℚ
  m7 : ℚ
  m11 : ℚ
  m15 : ℚ
deriving DecidableEq

/-- raymath `MatrixIdentity`. -/
def MatrixIdentity : Matrix :=
  ⟨1, 0, 0, 0,
   0, 1, 0, 0,
   0, 0, 1, 0,
   0, 0, 0, 1⟩

/-- raymath `MatrixTranslate`. -/
def MatrixTranslate (x y z : ℚ) : Matrix :=
  { MatrixIdentity with m12 := x, m13 := y, m14 := z }

/-- raymath `MatrixRotateX` on an angle in radians (trig via the oracle). -/
def MatrixRotateX (t : Trig) (angle : ℚ) : Matrix :=
  let c := t.cos angle
  let s := t.sin angle
  { MatrixIdentity with m5 := c, m6 := s, m9 := -s, m10 := c }

/-- raymath `MatrixRotateY`. -/
def MatrixRotateY (t : Trig) (angle : ℚ) : Matrix :=
  let c := t.cos angle
  let s := t.sin angle
  { MatrixIdentity with m0 := c, m2 := -s, m8 := s, m10 := c }

/-- raymath `MatrixRotateZ`. -/
def MatrixRotateZ (t : Trig) (angle : ℚ) : Matrix :=
  let c := t.cos angle
  let s := t.sin angle
  { MatrixIdentity with m0 := c, m1 := s, m4 := -s, m5 := c }

/-- raymath `MatrixMultiply left right`. -/
def MatrixMultiply (l r : Matrix) : Matrix where
  m0 := l.m0 * r.m0 + l.m1 * r.m4 + l.m2 * r.m8 + l.m3 * r.m12
  m1 := l.m0 * r.m1 + l.m1 * r.m5 + l.m2 * r.m9 + l.m3 * r.m13
  m2 := l.m0 * r.m2 + l.m1 * r.m6 + l.m2 * r.m10 + l.m3 * r.m14
  m3 := l.m0 * r.m3 + l.m1 * r.m7 + l.m2 * r.m11 + l.m3 * r.m15
  m4 := l.m4 * r.m0 + l.m5 * r.m4 + l.m6 * r.m8 + l.m7 * r.m12
  m5 := l.m4 * r.m1 + l.m5 * r.m5 + l.m6 * r.m9 + l.m7 * r.m13
  m6 := l.m4 * r.m2 + l.m5 * r.m6 + l.m6 * r.m10 + l.m7 * r.m14
  m7 := l.m4 * r.m3 + l.m5 * r.m7 + l.m6 * r.m11 + l.m7 * r.m15
  m8 := l.m8 * r.m0 + l.m9 * r.m4 + l.m10 * r.m8 + l.m11 * r.m12
  m9 := l.m8 * r.m1 + l.m9 * r.m5 + l.m10 * r.m9 + l.m11 * r.m13
  m10 := l.m8 * r.m2 + l.m9 * r.m6 + l.m10 * r.m10 + l.m11 * r.m14
  m11 := l.m8 * r.m3 + l.m9 * r.m7 + l.m10 * r.m11 + l.m11 * r.m15
  m12 := l.m12 * r.m0 + l.m13 * r.m4 + l.m14 * r.m8 + l.m15 * r.m12
  m13 := l.m12 * r.m1 + l.m13 * r.m5 + l.m14 * r.m9 + l.m15 * r.m13
  m14 := l.m12 * r.m2 + l.m13 * r.m6 + l.m14 * r.m10 + l.m15 * r.m14
  m15 := l.m12 * r.m3 + l.m13 * r.m7 + l.m14 * r.m11 + l.m15 * r.m15

/-- raymath `Vector3Transform`. -/
def Vector3Transform (v : Vec3) (mat : Matrix) : Vec3 where
  x := mat.m0 * v.x + mat.m4 * v.y + mat.m8 * v.z + mat.m12
  y := mat.m1 * v.x + mat.m5 * v.y + mat.m9 * v.z + mat.m13
  z := mat.m2 * v.x + mat.m6 * v.y + mat.m10 * v.z + mat.m14

/-! ### Game statistics (src/game/stat.h, src/game/stat.c) -/

/-- `GameStat`: hits, misses and score are C `int`s, modelled as `ℤ`. -/
structure GameStat where
  hits : ℤ
  misses : ℤ
  score : ℤ
deriving DecidableEq

/-- `GAME_STAT_HIT_COST` (stat.h). -/
def GAME_STAT_HIT_COST : ℤ := 1

/-- `GAME_STAT_MISS_COST` (stat.h). -/
def GAME_STAT_MISS_COST : ℤ := 1

/-- `GAME_STAT_SHOOT_COST` (stat.h). -/
def GAME_STAT_SHOOT_COST : ℤ := 2

/-- `newGameStat` (stat.c). -/
def newGameStat : GameStat := ⟨0, 0, 0⟩

/-- `addHitIntoGameStat` (stat.c): one more hit, score increases by the hit
cost. -/
def addHitIntoGameStat (stat : GameStat) : GameStat :=
  { stat with hits := stat.hits + 1, score := stat.score + GAME_STAT_HIT_COST }

/-- `addMissIntoGameStat` (stat.c): one more miss, score decreases by the
miss cost. -/
def addMissIntoGameStat (stat : GameStat) : GameStat :=
  { stat with misses := stat.misses + 1,
              score := stat.score - GAME_STAT_MISS_COST }

/-- `addShootIntoGameStat` (stat.c): score decreases by the shoot cost;
neither counter changes. -/
def addShootIntoGameStat (stat : GameStat) : GameStat :=
  { stat with score := stat.score - GAME_STAT_SHOOT_COST }

/-! ### Trail particle emitter (src/bullets/trail.h, src/bullets/trail.c) -/

/-- raylib `Color` (four `unsigned char` channels). -/
structure Color where
  r : ℕ
  g : ℕ
  b : ℕ
  a : ℕ
deriving DecidableEq

/-- `TrailParticle` (trail.h). -/
structure TrailParticle where
  pos : Vec3
  vel : Vec3
  size : ℚ
  rot : ℚ
  life : ℚ
  ttl : ℚ
  color : Color
deriving DecidableEq

/-- `TRAIL_MAX` (trail.h): fixed capacity of a trail emitter. -/
def TRAIL_MAX : ℕ := 128

/-- `TrailEmitter` (trail.h).  The particle array is modelled by the list of
its first `count` (live) entries; the GPU texture handle is opaque and
omitted. -/
structure TrailEmitter where
  p : List TrailParticle
  count : ℕ
  additive : Bool
  spawnRate : ℚ
  accum : ℚ
  baseSize : ℚ
  grow : ℚ
  damping : ℚ
  speed : ℚ
  baseColor : Color
deriving DecidableEq

/-- `newTrailEmitter` (trail.c), texture handle omitted. -/
def newTrailEmitter (additive : Bool) : TrailEmitter where
  p := []
  count := 0
  additive := additive
  spawnRate := 60
  accum := 0
  baseSize := 3/2
  grow := 3/2
  damping := 92/100
  speed := 22/10
  baseColor := ⟨255, 230, 120, 255⟩

/-- `frand a b` (trail.c): `a + (b - a) * u` where `u` models
`GetRandomValue(0, 10000) / 10000` drawn from the rng oracle. -/
def frand (a b u : ℚ) : ℚ := a + (b - a) * u

/-- One particle as initialised inside the `trailEmit` loop (trail.c),
consuming six rng draws (three jitter components, size, rotation, ttl). -/
def newTrailParticle (e : TrailEmitter) (origin dir : Vec3) (rng : ℕ → ℚ)
    (k : ℕ) : TrailParticle :=
  let jitter : Vec3 := ⟨frand (-1/4) (1/4) (rng k), frand (-1/4) (1/4) (rng (k+1)),
                        frand (-1/4) (1/4) (rng (k+2))⟩
  let v := vadd (vscale dir (-e.speed)) jitter
  let ttl := frand (35/100) (55/100) (rng (k+5))
  { pos := origin
    vel := v
    size := e.baseSize * frand (9/10) (12/10) (rng (k+3))
    rot := frand 0 360 (rng (k+4))
    life := ttl
    ttl := ttl
    color := e.baseColor }

/-- The `while (accum >= 1 && count < TRAIL_MAX)` spawn loop of `trailEmit`
(trail.c): create one particle and decrement the accumulator by one while
the accumulator is at least one and capacity remains. -/
def trailEmitLoop (rng : ℕ → ℚ) (origin dir : Vec3) (e : TrailEmitter)
    (k : ℕ) : TrailEmitter × ℕ :=
  if h : 1 ≤ e.accum ∧ e.count < TRAIL_MAX then
    trailEmitLoop rng origin dir
      { e with p := e.p ++ [newTrailParticle e origin dir rng k]
               count := e.count + 1
               accum := e.accum - 1 } (k + 6)
  else (e, k)
termination_by TRAIL_MAX - e.count
decreasing_by simp only [TRAIL_MAX] at *; omega

/-- `trailEmit` (trail.c): add `spawnRate * dt` to the accumulator, then run
the spawn loop. -/
def trailEmit (rng : ℕ → ℚ) (e : TrailEmitter) (origin dir : Vec3) (dt : ℚ)
    (k : ℕ) : TrailEmitter × ℕ :=
  trailEmitLoop rng origin dir { e with accum := e.accum + e.spawnRate * dt } k

/-- Per-particle motion step of `trailUpdate` (trail.c): integrate position,
damp velocity, grow size, decrement life. -/
def trailUpdateParticle (e : TrailEmitter) (dt : ℚ) (q : TrailParticle) :
    TrailParticle :=
  { q with pos := vadd q.pos (vscale q.vel dt)
           vel := vscale q.vel e.damping
           size := q.size + e.grow * dt
           life := q.life - dt }

/-- `trailUpdate` (trail.c): move every particle, keep (compacting in place,
order preserved) exactly those with `life > 0`, recomputing their alpha as
`(unsigned char)(220 * life / ttl)`. -/
def trailUpdate (e : TrailEmitter) (dt : ℚ) : TrailEmitter :=
  let kept := (e.p.map (trailUpdateParticle e dt)).filterMap (fun q =>
    if 0 < q.life then
      some { q with color := { q.color with a := (⌊220 * (q.life / q.ttl)⌋).toNat } }
    else none)
  { e with p := kept, count := kept.length }

/-- An observable operation on a trail emitter: one `trailEmit` call or one
`trailUpdate` call, with all of its inputs. -/
inductive TrailOp
  | emit (rng : ℕ → ℚ) (k : ℕ) (origin dir : Vec3) (dt : ℚ)
  | update (dt : ℚ)

/-- Apply a sequence of emit/update operations to an emitter. -/
def applyTrailOps (ops : List TrailOp) (e : TrailEmitter) : TrailEmitter :=
  match ops with
  | [] => e
  | TrailOp.emit rng k origin dir dt :: rest =>
      applyTrailOps rest (trailEmit rng e origin dir dt k).1
  | TrailOp.update dt :: rest => applyTrailOps rest (trailUpdate e dt)

/-! ### Bullets (src/bullets/bullets.h, src/bullets/bullets.c) -/

/-- `BulletOwner` (bullets.h). -/
inductive BulletOwner
  | player
  | unit
deriving DecidableEq

/-- `BulletMovementDirection` (bullets.h): up is negative Z, down positive Z. -/
inductive BulletMovementDirection
  | up
  | down
deriving DecidableEq

/-- `BulletParameters` (bullets.h): damage values stored in `uint8_t`
fields. -/
structure BulletParameters where
  health : ℕ
  energy : ℕ
deriving DecidableEq

/-- `BulletPosition` (bullets.h). -/
structure BulletPosition where
  x : ℚ
  y : ℚ
  z : ℚ
deriving DecidableEq

/-- `BulletSize` (bullets.h). -/
structure BulletSize where
  by_x : ℚ
  by_y : ℚ
  by_z : ℚ
  radius_top : ℚ
  radius_bottom : ℚ
  slices : ℚ
deriving DecidableEq

/-- `BulletMovement` (bullets.h).  The render-only `angle` field (set with
`atan2f` and never read by update/collision logic) is omitted. -/
structure BulletMovement where
  acceleration : ℚ
  speed : ℚ
  direction : BulletMovementDirection
  dir : Vec3
deriving DecidableEq

/-- `Bullet` (bullets.h). -/
structure Bullet where
  movement : BulletMovement
  position : BulletPosition
  size : BulletSize
  params : BulletParameters
  alive : Bool
  owner : BulletOwner
  trail : TrailEmitter
deriving DecidableEq

/-- `BulletAreaFrame` (bullets.h). -/
structure BulletAreaFrame where
  top : ℚ
  bottom : ℚ
deriving DecidableEq

/-- `newBulletAreaFrame` (bullets.c): top = -60, bottom = 60. -/
def newBulletAreaFrame : BulletAreaFrame := ⟨-60, 60⟩

/-- `newBulletMovement` (bullets.c): direction vector is `(0, 0, -1)` for
up and `(0, 0, 1)` for down. -/
def newBulletMovement (direction : BulletMovementDirection)
    (acceleration speed : ℚ) : BulletMovement where
  acceleration := acceleration
  speed := speed
  direction := direction
  dir := ⟨0, 0, if direction = BulletMovementDirection.up then -1 else 1⟩

/-- `newBulletPosition` (bullets.c). -/
def newBulletPosition (x y z : ℚ) : BulletPosition := ⟨x, y, z⟩

/-- `newBulletSize` (bullets.c): both radii default to 0.25, slices to 15. -/
def newBulletSize (by_x by_y by_z : ℚ) : BulletSize :=
  ⟨by_x, by_y, by_z, 1/4, 1/4, 15⟩

/-- `newBulletParameters` (bullets.c): the float damage inputs are stored
into the `uint8_t` struct fields (truncation, then the 8-bit range). -/
def newBulletParameters (health energy : ℚ) : BulletParameters :=
  ⟨(⌊health⌋).toNat % 256, (⌊energy⌋).toNat % 256⟩

/-- `newBullet` (bullets.c); the texture lookup is non-null after successful
initialisation, and the trail emitter is created additive. -/
def newBullet (direction : BulletMovementDirection) (position : BulletPosition)
    (size : BulletSize) (params : BulletParameters) (owner : BulletOwner)
    (acceleration speed : ℚ) : Bullet where
  movement := newBulletMovement direction acceleration speed
  position := position
  size := size
  params := params
  alive := true
  owner := owner
  trail := newTrailEmitter true

/-- `updateBullet` (bullets.c): null or dead bullets are untouched; otherwise
speed gains acceleration, position advances along the direction vector, and a
bullet leaving the `[top, bottom]` Z-range dies, counting a miss exactly when
it is player-owned. -/
def updateBullet (bullet : Option Bullet) (frame : BulletAreaFrame)
    (stat : GameStat) : Option Bullet × GameStat :=
  match bullet with
  | none => (none, stat)
  | some b =>
    if b.alive = false then (some b, stat)
    else
      let speed := b.movement.speed + b.movement.acceleration
      let pos : BulletPosition :=
        { b.position with x := b.position.x + speed * b.movement.dir.x
                          z := b.position.z + speed * b.movement.dir.z }
      let b1 := { b with movement := { b.movement with speed := speed }
                         position := pos }
      if pos.z < frame.top ∨ pos.z > frame.bottom then
        let b2 := { b1 with alive := false }
        if b2.owner = BulletOwner.player then (some b2, addMissIntoGameStat stat)
        else (some b2, stat)
      else (some b1, stat)

/-- `getBulletBoundingBox` (bullets.c). -/
def getBulletBoundingBox (bullet : Bullet) : BoundingBox where
  min := ⟨bullet.position.x - bullet.size.by_x / 2,
          bullet.position.y - bullet.size.by_y / 2,
          bullet.position.z - bullet.size.by_z / 2⟩
  max := ⟨bullet.position.x + bullet.size.by_x / 2,
          bullet.position.y + bullet.size.by_y / 2,
          bullet.position.z + bullet.size.by_z / 2⟩

/-- `BulletNode` (bullets.h): list node carrying a bullet and its spawn
index (prev/next pointers are represented by the position of the node in the
list sequence). -/
structure BulletNode where
  self : Bullet
  idx : ℕ
deriving DecidableEq

/-- `BulletList` (bullets.h), as the forward sequence of its nodes plus the
bookkeeping fields. -/
structure BulletList where
  nodes : List BulletNode
  length : ℕ
  idx : ℕ
  last_spawn : ℚ
  frame : BulletAreaFrame
deriving DecidableEq

/-- `newBulletList` (bullets.c) at creation time `now`. -/
def newBulletList (now : ℚ) : BulletList :=
  ⟨[], 0, 0, now, newBulletAreaFrame⟩

/-- `insertBulletIntoList` (bullets.c): the spawn counter is incremented,
then a node is allocated; on allocation failure (`allocOk = false`) the
function returns with the node sequence, head, tail and length untouched;
on success the node is appended at the tail with the new spawn index. -/
def insertBulletIntoList (list : BulletList) (bullet : Bullet)
    (allocOk : Bool) : BulletList :=
  let list1 := { list with idx := list.idx + 1 }
  if allocOk = false then list1
  else
    { list1 with nodes := list1.nodes ++ [⟨bullet, list1.idx⟩]
                 length := list1.length + 1 }

/-- The node-removal loop of `removeBullets` (bullets.c) on the forward
sequence: every node whose bullet is not alive is unlinked (its neighbours
are joined) and freed. -/
def removeBulletsGo : List BulletNode → List BulletNode
  | [] => []
  | n :: rest =>
      if n.self.alive = false then removeBulletsGo rest
      else n :: removeBulletsGo rest

/-- `removeBullets` (bullets.c): single forward pass removing dead nodes,
decrementing `length` once per removed node. -/
def removeBullets (list : BulletList) : BulletList :=
  { list with nodes := removeBulletsGo list.nodes
              length := list.length -
                list.nodes.countP (fun n => n.self.alive = false) }

/-- `bulletCollisionRadius` (bullets.c): the larger shape radius, or half the
largest planar extent when the shape radii vanish. -/
def bulletCollisionRadius (b : Bullet) : ℚ :=
  let r_shape := max b.size.radius_top b.size.radius_bottom
  if 0 < r_shape then r_shape
  else (1/2) * max b.size.by_x b.size.by_z

/-- `bulletsOverlapXZ` (bullets.c): squared XZ-distance against squared sum
of effective radii. -/
def bulletsOverlapXZ (a b : Bullet) : Bool :=
  let dx := a.position.x - b.position.x
  let dz := a.position.z - b.position.z
  let r := bulletCollisionRadius a + bulletCollisionRadius b
  dx * dx + dz * dz ≤ r * r

/-- Kill a bullet node (set `alive = false`), as done by the collision
passes. -/
def killBulletNode (n : BulletNode) : BulletNode :=
  { n with self := { n.self with alive := false } }

/-- Inner loop of `bulletsResolveMutualCollisions` (bullets.c): scan the
nodes after `a` (whose absolute indices start at `base`); skip dead nodes
and, when the same-owner policy is off, nodes of `a`'s owner; at the first
overlapping partner kill both and stop (the C `break`).  Returns `a` (killed
or not), the updated suffix, and the absolute index of the killed partner. -/
def mutualInner (same_owner_collides : Bool) (a : Bullet) (base : ℕ) :
    List BulletNode → Bullet × List BulletNode × Option ℕ
  | [] => (a, [], none)
  | n :: rest =>
    if n.self.alive = false then
      let (a', rest', j) := mutualInner same_owner_collides a (base + 1) rest
      (a', n :: rest', j)
    else if same_owner_collides = false ∧ a.owner = n.self.owner then
      let (a', rest', j) := mutualInner same_owner_collides a (base + 1) rest
      (a', n :: rest', j)
    else if bulletsOverlapXZ a n.self then
      ({ a with alive := false }, killBulletNode n :: rest, some base)
    else
      let (a', rest', j) := mutualInner same_owner_collides a (base + 1) rest
      (a', n :: rest', j)

/-- Outer loop of `bulletsResolveMutualCollisions` (bullets.c): for every
alive node, run the inner scan over the remaining nodes; collect the killed
pairs as absolute index pairs. -/
def mutualOuter (same_owner_collides : Bool) (base : ℕ) :
    List BulletNode → List BulletNode × List (ℕ × ℕ)
  | [] => ([], [])
  | n :: rest =>
    if n.self.alive = false then
      let w := mutualOuter same_owner_collides (base + 1) rest
      (n :: w.1, w.2)
    else
      let inner := mutualInner same_owner_collides n.self (base + 1) rest
      let w := mutualOuter same_owner_collides (base + 1) inner.2.1
      match inner.2.2 with
      | none => ({ n with self := inner.1 } :: w.1, w.2)
      | some j => ({ n with self := inner.1 } :: w.1, (base, j) :: w.2)
termination_by l => l.length
decreasing_by
  all_goals
    have H : ∀ (f : Bool) (a : Bullet) (b : ℕ) (l : List BulletNode),
        (mutualInner f a b l).2.1.length = l.length := by
      intro f a b l
      induction l generalizing b with
      | nil => simp [mutualInner]
      | cons m rest ih =>
        simp only [mutualInner]
        split
        · simpa using ih (b + 1)
        · split
          · simpa using ih (b + 1)
          · split
            · simp
            · simpa using ih (b + 1)
    simp [H]

/-- The marking phase of `bulletsResolveMutualCollisions` (bullets.c). -/
def bulletsMutualMark (same_owner_collides : Bool) (nodes : List BulletNode) :
    List BulletNode × List (ℕ × ℕ) :=
  mutualOuter same_owner_collides 0 nodes

/-- `bulletsResolveMutualCollisions` (bullets.c): mark mutually colliding
bullets dead, then `removeBullets`. -/
def bulletsResolveMutualCollisions (list : BulletList)
    (same_owner_collides : Bool) : BulletList :=
  removeBullets
    { list with nodes := (bulletsMutualMark same_owner_collides list.nodes).1 }

/-! ### Movement state machine (src/movement/movement.h, movement.c) -/

/-- `MOVEMENT_DIRECTION_LEFT` bit. -/
def MOVEMENT_DIRECTION_LEFT : ℕ := 1

/-- `MOVEMENT_DIRECTION_RIGHT` bit. -/
def MOVEMENT_DIRECTION_RIGHT : ℕ := 2

/-- `MOVEMENT_DIRECTION_UP` bit. -/
def MOVEMENT_DIRECTION_UP : ℕ := 4

/-- `MOVEMENT_DIRECTION_DOWN` bit. -/
def MOVEMENT_DIRECTION_DOWN : ℕ := 8

/-- `MOVEMENT_DIRECTION_FORWARD` bit. -/
def MOVEMENT_DIRECTION_FORWARD : ℕ := 16

/-- `MOVEMENT_DIRECTION_BACKWARD` bit. -/
def MOVEMENT_DIRECTION_BACKWARD : ℕ := 32

/-- `MOVEMENT_X_MASK` (movement.c). -/
def MOVEMENT_X_MASK : ℕ := MOVEMENT_DIRECTION_LEFT ||| MOVEMENT_DIRECTION_RIGHT

/-- `MOVEMENT_Y_MASK` (movement.c). -/
def MOVEMENT_Y_MASK : ℕ := MOVEMENT_DIRECTION_UP ||| MOVEMENT_DIRECTION_DOWN

/-- `MOVEMENT_Z_MASK` (movement.c). -/
def MOVEMENT_Z_MASK : ℕ :=
  MOVEMENT_DIRECTION_FORWARD ||| MOVEMENT_DIRECTION_BACKWARD

/-- `MOVEMENT_MAX_X` = `MOVEMENT_MAX_Y` = `MOVEMENT_MAX_Z` = 1.0
(movement.c). -/
def MOVEMENT_MAX : ℚ := 1

/-- C `fabsf`. -/
def fabsf (q : ℚ) : ℚ := if q < 0 then -q else q

/-- `MovementAction` (movement.h); `direction` is the `uint8_t` bitmask. -/
structure MovementAction where
  direction : ℕ
  step_x : ℚ
  step_y : ℚ
  step_z : ℚ
  rotate_x : ℚ
  rotate_y : ℚ
  rotate_z : ℚ
  max_rotate_x : ℚ
  max_rotate_y : ℚ
  max_rotate_z : ℚ
  max_angle : ℚ
  angle : ℚ
  max_x : ℚ
  max_y : ℚ
  max_z : ℚ
  x : ℚ
  y : ℚ
  z : ℚ
deriving DecidableEq

/-- `randomFloatInRange` (movement.c) with the uniform draw
`u = rand() / RAND_MAX ∈ [0, 1]` made explicit. -/
def randomFloatInRange (lo hi u : ℚ) : ℚ := lo + u * (hi - lo)

/-- `randSpeedMovementAction` (movement.c): draw the three per-axis steps
uniformly from `[0.01, 0.05]`, consuming three rng values. -/
def randSpeedMovementAction (rng : ℕ → ℚ) (s : MovementAction × ℕ) :
    MovementAction × ℕ :=
  ({ s.1 with step_x := randomFloatInRange (1/100) (1/20) (rng s.2)
              step_y := randomFloatInRange (1/100) (1/20) (rng (s.2 + 1))
              step_z := randomFloatInRange (1/100) (1/20) (rng (s.2 + 2)) },
   s.2 + 3)

/-- `newMovementAction` (movement.c): the initial direction picks left or
right and forward or backward by two coin flips, bounds are the movement
maxima, offsets start at zero, and the steps are drawn by
`randSpeedMovementAction`. -/
def newMovementAction (leftCoin forwardCoin : Bool) (rng : ℕ → ℚ) (k : ℕ) :
    MovementAction × ℕ :=
  randSpeedMovementAction rng
    ({ direction :=
        (if leftCoin then MOVEMENT_DIRECTION_LEFT else MOVEMENT_DIRECTION_RIGHT) |||
        (if forwardCoin then MOVEMENT_DIRECTION_FORWARD
         else MOVEMENT_DIRECTION_BACKWARD)
       step_x := 0, step_y := 0, step_z := 0
       rotate_x := 0, rotate_y := 0, rotate_z := 0
       max_rotate_x := 10, max_rotate_y := 0, max_rotate_z := 15
       max_angle := 15, angle := 0
       max_x := MOVEMENT_MAX, max_y := MOVEMENT_MAX, max_z := MOVEMENT_MAX
       x := 0, y := 0, z := 0 }, k)

/-- The X-axis block of `iterateMovementAction` (movement.c, lines 119-139):
while within the bound, move by the step toward the active direction;
otherwise clamp to the signed bound, flip the active horizontal direction
and redraw all steps; finally derive `rotate_z` and `angle` from the new
offset (or zero `rotate_z` when the axis is inactive). -/
def iterateMovementX (rng : ℕ → ℚ) (s : MovementAction × ℕ) :
    MovementAction × ℕ :=
  let a := s.1
  if a.direction &&& MOVEMENT_X_MASK ≠ 0 then
    let s1 : MovementAction × ℕ :=
      if fabsf a.x ≤ a.max_x then
        ({ a with x := a.x + a.step_x *
            (if a.direction &&& MOVEMENT_DIRECTION_LEFT ≠ 0 then -1 else 1) },
         s.2)
      else
        let a1 := { a with x := a.max_x * (if 0 < a.x then 1 else -1) }
        let a2 :=
          if a1.direction &&& MOVEMENT_DIRECTION_LEFT ≠ 0 then
            { a1 with direction :=
                (a1.direction &&& (255 ^^^ MOVEMENT_DIRECTION_LEFT)) |||
                MOVEMENT_DIRECTION_RIGHT }
          else
            { a1 with direction :=
                (a1.direction &&& (255 ^^^ MOVEMENT_DIRECTION_RIGHT)) |||
                MOVEMENT_DIRECTION_LEFT }
        randSpeedMovementAction rng (a2, s.2)
    ({ s1.1 with rotate_z := -s1.1.max_rotate_z * (s1.1.x / s1.1.max_x)
                 angle := s1.1.max_angle * ((s1.1.max_x - fabsf s1.1.x) - s1.1.max_x) },
     s1.2)
  else ({ a with rotate_z := 0 }, s.2)

/-- The Y-axis block of `iterateMovementAction` (movement.c, lines 140-155). -/
def iterateMovementY (rng : ℕ → ℚ) (s : MovementAction × ℕ) :
    MovementAction × ℕ :=
  let a := s.1
  if a.direction &&& MOVEMENT_Y_MASK ≠ 0 then
    if fabsf a.y ≤ a.max_y then
      ({ a with y := a.y + a.step_y *
          (if a.direction &&& MOVEMENT_DIRECTION_UP ≠ 0 then -1 else 1) },
       s.2)
    else
      let a1 := { a with y := a.max_y * (if 0 < a.y then 1 else -1) }
      let a2 :=
        if a1.direction &&& MOVEMENT_DIRECTION_UP ≠ 0 then
          { a1 with direction :=
              (a1.direction &&& (255 ^^^ MOVEMENT_DIRECTION_UP)) |||
              MOVEMENT_DIRECTION_DOWN }
        else
          { a1 with direction :=
              (a1.direction &&& (255 ^^^ MOVEMENT_DIRECTION_DOWN)) |||
              MOVEMENT_DIRECTION_UP }
      randSpeedMovementAction rng (a2, s.2)
  else s

/-- The Z-axis block of `iterateMovementAction` (movement.c, lines 156-176):
like the X block, deriving `rotate_x` and `angle` (or zeroing `rotate_x`
when inactive). -/
def iterateMovementZ (rng : ℕ → ℚ) (s : MovementAction × ℕ) :
    MovementAction × ℕ :=
  let a := s.1
  if a.direction &&& MOVEMENT_Z_MASK ≠ 0 then
    let s1 : MovementAction × ℕ :=
      if fabsf a.z ≤ a.max_z then
        ({ a with z := a.z + a.step_z *
            (if a.direction &&& MOVEMENT_DIRECTION_FORWARD ≠ 0 then -1 else 1) },
         s.2)
      else
        let a1 := { a with z := a.max_z * (if 0 < a.z then 1 else -1) }
        let a2 :=
          if a1.direction &&& MOVEMENT_DIRECTION_FORWARD ≠ 0 then
            { a1 with direction :=
                (a1.direction &&& (255 ^^^ MOVEMENT_DIRECTION_FORWARD)) |||
                MOVEMENT_DIRECTION_BACKWARD }
          else
            { a1 with direction :=
                (a1.direction &&& (255 ^^^ MOVEMENT_DIRECTION_BACKWARD)) |||
                MOVEMENT_DIRECTION_FORWARD }
        randSpeedMovementAction rng (a2, s.2)
    ({ s1.1 with rotate_x := s1.1.max_rotate_x * (s1.1.z / s1.1.max_z)
                 angle := s1.1.max_angle * ((s1.1.max_z - fabsf s1.1.z) - s1.1.max_z) },
     s1.2)
  else ({ a with rotate_x := 0 }, s.2)

/-- `iterateMovementAction` (movement.c): the three axis blocks in source
order. -/
def iterateMovementAction (rng : ℕ → ℚ) (s : MovementAction × ℕ) :
    MovementAction × ℕ :=
  iterateMovementZ rng (iterateMovementY rng (iterateMovementX rng s))

/-- `n` frames of `iterateMovementAction`. -/
def iterateMovementActionN (rng : ℕ → ℚ) (n : ℕ) (s : MovementAction × ℕ) :
    MovementAction × ℕ :=
  match n with
  | 0 => s
  | n + 1 => iterateMovementActionN rng n (iterateMovementAction rng s)

/-! ### Units (src/units/unit.h, unit.c) -/

/-- `UnitType` (unit.h). -/
inductive UnitType
  | solder
  | enemy
deriving DecidableEq

/-- `UnitState` (unit.h): health/energy are `uint8_t`, timestamps are
doubles. -/
structure UnitState where
  health : ℕ
  energy : ℕ
  init_health : ℕ
  init_energy : ℕ
  hit_time : ℚ
  last_shoot : ℚ
deriving DecidableEq

/-- `UnitPosition` (unit.h). -/
structure UnitPosition where
  x : ℚ
  y : ℚ
  z : ℚ
  z_max_area : ℚ
  z_offset : ℚ
  ln : ℕ
  col : ℕ
  in_front : Bool
deriving DecidableEq

/-- `UnitSize` (unit.h). -/
structure UnitSize where
  height : ℕ
  width : ℕ
deriving DecidableEq

/-- `UnitRender` (unit.h); `action` is a nullable pointer, hence `Option`. -/
structure UnitRender where
  position : UnitPosition
  size : UnitSize
  action : Option MovementAction
  last_frame : ℕ
  visible : Bool
deriving DecidableEq

/-- `ShipBoundingBox` (models.h). -/
structure ShipBoundingBox where
  by_x : ℚ
  by_y : ℚ
  by_z : ℚ
deriving DecidableEq

/-- `ShipModel` (models.h): only the collision box is read by the combat
logic; the GPU geometry/texture handles are opaque and omitted. -/
structure ShipModel where
  box : ShipBoundingBox
deriving DecidableEq

/-- `Unit` (unit.h); the render-only sprite/explosion handles are omitted. -/
structure Unit where
  type : UnitType
  state : UnitState
  render : UnitRender
  model : ShipModel
deriving DecidableEq

/-- `DEFAULT_UNIT_HEALTH` (unit.c). -/
def DEFAULT_UNIT_HEALTH : ℕ := 100

/-- `DEFAULT_UNIT_ENERGY` (unit.c). -/
def DEFAULT_UNIT_ENERGY : ℕ := 100

/-- `newUnitState` (unit.c). -/
def newUnitState : UnitState :=
  ⟨DEFAULT_UNIT_HEALTH, DEFAULT_UNIT_ENERGY, DEFAULT_UNIT_HEALTH,
   DEFAULT_UNIT_ENERGY, 0, 0⟩

/-- `getUnitBoundingBox` (unit.c): translate the local model box by the
unit position plus movement offsets, rotate by the movement rotation, and
take the axis-aligned hull of the eight transformed corners. -/
def getUnitBoundingBox (t : Trig) (unit : Unit) : BoundingBox :=
  let box := unit.model.box
  let render := unit.render
  let action := render.action
  let ax := match action with | some a => a.x | none => 0
  let ay := match action with | some a => a.y | none => 0
  let az := match action with | some a => a.z | none => 0
  let x := render.position.x + ax
  let y := render.position.y + ay
  let z := render.position.z + az + render.position.z_offset
  let lmin : Vec3 := ⟨-box.by_x / 2, -box.by_y / 2, -box.by_z / 2⟩
  let lmax : Vec3 := ⟨box.by_x / 2, box.by_y / 2, box.by_z / 2⟩
  let transform0 := MatrixTranslate x y z
  let transform :=
    match action with
    | some a =>
        let rotX := MatrixRotateX t (t.deg2rad * a.rotate_x)
        let rotZ := MatrixRotateZ t (t.deg2rad * a.rotate_z)
        let rotY := MatrixRotateY t (t.deg2rad * a.rotate_y)
        MatrixMultiply (MatrixMultiply (MatrixMultiply rotX rotZ) rotY)
          transform0
    | none => transform0
  let corners : List Vec3 :=
    [⟨lmin.x, lmin.y, lmin.z⟩, ⟨lmin.x, lmin.y, lmax.z⟩,
     ⟨lmin.x, lmax.y, lmin.z⟩, ⟨lmin.x, lmax.y, lmax.z⟩,
     ⟨lmax.x, lmin.y, lmin.z⟩, ⟨lmax.x, lmin.y, lmax.z⟩,
     ⟨lmax.x, lmax.y, lmin.z⟩, ⟨lmax.x, lmax.y, lmax.z⟩]
  let c0 := Vector3Transform ⟨lmin.x, lmin.y, lmin.z⟩ transform
  (corners.drop 1).foldl
    (fun world c =>
      let tc := Vector3Transform c transform
      ⟨vmin world.min tc, vmax world.max tc⟩)
    ⟨c0, c0⟩

/-- The damage application of `checkBulletHitsUnit` / `checkBulletHitsPlayer`
(unit.c lines 654-669, player.c lines 546-562) on a `UnitState`: health and
energy each drop by the bullet damage, guarded to never go below zero, and
the hit timestamp becomes the current time. -/
def hitUnitState (s : UnitState) (p : BulletParameters) (now : ℚ) :
    UnitState :=
  let s1 :=
    if 0 < s.health then
      { s with health := if p.health < s.health then s.health - p.health else 0 }
    else s
  let s2 :=
    if 0 < s1.energy then
      { s1 with energy := if p.energy < s1.energy then s1.energy - p.energy else 0 }
    else s1
  { s2 with hit_time := now }

/-- Bullet-loop of `checkBulletHitsUnit` (unit.c): walk the bullet nodes;
dead or non-player bullets are skipped; otherwise the bullet box is tested
against the unit box, and on collision the bullet dies, the unit state takes
the damage, and a hit is recorded.  The returned flag list is aligned with
the nodes: for each node, whether the box test ran and whether it hit. -/
def unitHitGo (uBox : BoundingBox) (now : ℚ) (u : Unit) (stat : GameStat) :
    List BulletNode → Unit × GameStat × List BulletNode × List (Bool × Bool)
  | [] => (u, stat, [], [])
  | n :: rest =>
    if n.self.alive = true ∧ n.self.owner = BulletOwner.player then
      if CheckCollisionBoxes uBox (getBulletBoundingBox n.self) = true then
        let u' := { u with state := hitUnitState u.state n.self.params now }
        let r := unitHitGo uBox now u' (addHitIntoGameStat stat) rest
        (r.1, r.2.1, killBulletNode n :: r.2.2.1, (true, true) :: r.2.2.2)
      else
        let r := unitHitGo uBox now u stat rest
        (r.1, r.2.1, n :: r.2.2.1, (true, false) :: r.2.2.2)
    else
      let r := unitHitGo uBox now u stat rest
      (r.1, r.2.1, n :: r.2.2.1, (false, false) :: r.2.2.2)

/-- `checkBulletHitsUnit` (unit.c): compute the unit box once, then run the
bullet loop. -/
def checkBulletHitsUnit (t : Trig) (u : Unit) (nodes : List BulletNode)
    (stat : GameStat) (now : ℚ) :
    Unit × GameStat × List BulletNode × List (Bool × Bool) :=
  unitHitGo (getUnitBoundingBox t u) now u stat nodes

/-- Result of the unit-loop of `checkBulletHitsUnits`, with one flag row per
unit (instrumentation of which bullet was tested/hit by which unit). -/
structure UnitsPassResult where
  units : List Unit
  stat : GameStat
  nodes : List BulletNode
  rows : List (List (Bool × Bool))

/-- Unit-loop of `checkBulletHitsUnits` (unit.c): process every unit in list
order against the (threaded) bullet nodes. -/
def unitsHitGo (t : Trig) (now : ℚ) :
    List Unit → GameStat → List BulletNode → UnitsPassResult
  | [], stat, nodes => ⟨[], stat, nodes, []⟩
  | u :: us, stat, nodes =>
    let one := checkBulletHitsUnit t u nodes stat now
    let r := unitsHitGo t now us one.2.1 one.2.2.1
    ⟨one.1 :: r.units, r.stat, r.nodes, one.2.2.2 :: r.rows⟩

/-- `checkBulletHitsUnits` (unit.c): the unit loop followed by
`removeBullets`. -/
def checkBulletHitsUnits (t : Trig) (units : List Unit) (list : BulletList)
    (stat : GameStat) (now : ℚ) : List Unit × BulletList × GameStat :=
  let r := unitsHitGo t now units stat list.nodes
  (r.units, removeBullets { list with nodes := r.nodes }, r.stat)

/-- `removeUnits` (unit.c) on the forward node sequence: unlink and free
every unit that is no longer visible. -/
def removeUnitsGo : List Unit → List Unit
  | [] => []
  | u :: rest =>
      if u.render.visible = false then removeUnitsGo rest
      else u :: removeUnitsGo rest

/-- `UnitList` (unit.h), as the forward sequence of its nodes plus the
length field. -/
structure UnitList where
  nodes : List Unit
  length : ℕ
deriving DecidableEq

/-- `removeUnits` (unit.c): single forward pass removing invisible units,
decrementing `length` once per removed node. -/
def removeUnits (list : UnitList) : UnitList :=
  { list with nodes := removeUnitsGo list.nodes
              length := list.length -
                list.nodes.countP (fun u => u.render.visible = false) }

/-! ### Player (src/units/player.h, player.c) and level parameters
(src/game/levels.h, levels.c) -/

/-- `LevelPlayerParameters` (levels.h): plain combat tuning values. -/
structure LevelPlayerParameters where
  bullet_acceleration : ℚ
  bullet_init_speed : ℚ
  bullet_delay_spawn : ℚ
  damage_life : ℚ
  damage_energy : ℚ
deriving DecidableEq

/-- `PlayerPosition` (player.h). -/
structure PlayerPosition where
  x : ℚ
  y : ℚ
  z : ℚ
  max_x : ℚ
  max_y : ℚ
  max_z : ℚ
  offset_z : ℚ
deriving DecidableEq

/-- `PlayerVisualState` (player.h). -/
structure PlayerVisualState where
  rotate_x : ℚ
  rotate_y : ℚ
  rotate_z : ℚ
  rotate_step_x : ℚ
  rotate_step_y : ℚ
  rotate_step_z : ℚ
  angle : ℚ
  max_angle : ℚ
  max_rotate_x : ℚ
  max_rotate_y : ℚ
  max_rotate_z : ℚ
deriving DecidableEq

/-- `PlayerRender` (player.h); the key-input movement bookkeeping fields are
not read by the collision logic and are omitted. -/
structure PlayerRender where
  position : PlayerPosition
  size : UnitSize
  state : PlayerVisualState
deriving DecidableEq

/-- `Player` (player.h); the bullet list it references is passed separately,
render-only handles omitted. -/
structure Player where
  type : UnitType
  state : UnitState
  render : PlayerRender
  model : ShipModel
deriving DecidableEq

/-- raymath `MatrixRotateXYZ` (trig via the oracle, applied to the negated
angles as in raymath). -/
def MatrixRotateXYZ (t : Trig) (angle : Vec3) : Matrix :=
  let cosz := t.cos (-angle.z)
  let sinz := t.sin (-angle.z)
  let cosy := t.cos (-angle.y)
  let siny := t.sin (-angle.y)
  let cosx := t.cos (-angle.x)
  let sinx := t.sin (-angle.x)
  { MatrixIdentity with
      m0 := cosz * cosy
      m1 := cosz * siny * sinx - sinz * cosx
      m2 := cosz * siny * cosx + sinz * sinx
      m4 := sinz * cosy
      m5 := sinz * siny * sinx + cosz * cosx
      m6 := sinz * siny * cosx - cosz * sinx
      m8 := -siny
      m9 := cosy * sinx
      m10 := cosy * cosx }

/-- `getPlayerBoundingBox` (player.c): rotate the eight local corners of the
model box by the player's visual rotation, translate by the player position
(with the Z offset), and take the axis-aligned hull. -/
def getPlayerBoundingBox (t : Trig) (player : Player) : BoundingBox :=
  let box := player.model.box
  let render := player.render
  let pos : Vec3 := ⟨render.position.x, render.position.y,
                     render.position.z + render.position.offset_z⟩
  let hx := box.by_x * (1/2)
  let hy := box.by_y * (1/2)
  let hz := box.by_z * (1/2)
  let corners : List Vec3 :=
    [⟨-hx, -hy, -hz⟩, ⟨-hx, -hy, hz⟩, ⟨-hx, hy, -hz⟩, ⟨-hx, hy, hz⟩,
     ⟨hx, -hy, -hz⟩, ⟨hx, -hy, hz⟩, ⟨hx, hy, -hz⟩, ⟨hx, hy, hz⟩]
  let r := MatrixRotateXYZ t ⟨render.state.rotate_x, render.state.rotate_y,
                              render.state.rotate_z⟩
  let p0 := vadd (Vector3Transform ⟨-hx, -hy, -hz⟩ r) pos
  (corners.drop 1).foldl
    (fun world c =>
      let pw := vadd (Vector3Transform c r) pos
      ⟨vmin world.min pw, vmax world.max pw⟩)
    ⟨p0, p0⟩

/-- Bullet-loop of `checkBulletHitsPlayer` (player.c): dead or non-unit
bullets are skipped; on a box collision the bullet dies, the player state
takes the damage, and — as the source is written — `addShootIntoGameStat`
is applied to the statistics. -/
def playerHitGo (pBox : BoundingBox) (now : ℚ) (p : Player) (stat : GameStat) :
    List BulletNode → Player × GameStat × List BulletNode
  | [] => (p, stat, [])
  | n :: rest =>
    if n.self.alive = true ∧ n.self.owner = BulletOwner.unit then
      if CheckCollisionBoxes pBox (getBulletBoundingBox n.self) = true then
        let p' := { p with state := hitUnitState p.state n.self.params now }
        let r := playerHitGo pBox now p' (addShootIntoGameStat stat) rest
        (r.1, r.2.1, killBulletNode n :: r.2.2)
      else
        let r := playerHitGo pBox now p stat rest
        (r.1, r.2.1, n :: r.2.2)
    else
      let r := playerHitGo pBox now p stat rest
      (r.1, r.2.1, n :: r.2.2)

/-- `checkBulletHitsPlayer` (player.c): compute the player box once, run the
bullet loop, then `removeBullets`. -/
def checkBulletHitsPlayer (t : Trig) (p : Player) (list : BulletList)
    (stat : GameStat) (now : ℚ) : Player × BulletList × GameStat :=
  let r := playerHitGo (getPlayerBoundingBox t p) now p stat list.nodes
  (r.1, removeBullets { list with nodes := r.2.2 }, r.2.1)

/-- The space-key firing branch of `updatePlayer` (player.c, lines 201-215),
taken when the spawn cooldown has elapsed: build the player bullet and
insert it into the bullet list, updating `last_spawn`.  `updatePlayer` does
not receive the game statistics at all (its parameters are the player, the
level and the textures), so firing cannot change any statistic; the
statistics value is threaded through unchanged to make that explicit. -/
def updatePlayerFire (position : PlayerPosition) (bullets : BulletList)
    (level : LevelPlayerParameters) (stat : GameStat) (current_time : ℚ)
    (allocOk : Bool) : BulletList × GameStat :=
  let bullet := newBullet BulletMovementDirection.up
    (newBulletPosition position.x position.y (position.z + position.offset_z))
    (newBulletSize (1/4) (1/4) 2)
    (newBulletParameters level.damage_life level.damage_energy)
    BulletOwner.player level.bullet_acceleration level.bullet_init_speed
  let bullets1 := insertBulletIntoList bullets bullet allocOk
  ({ bullets1 with last_spawn := current_time }, stat)

/-! ### Auxiliary definitions for stating and instantiating the claims -/

/-- `n` frames of `updateBullet` against a fixed area frame, threading the
statistics. -/
def updateBulletN (frame : BulletAreaFrame) (n : ℕ)
    (s : Option Bullet × GameStat) : Option Bullet × GameStat :=
  match n with
  | 0 => s
  | n + 1 => updateBulletN frame n (updateBullet s.1 frame s.2)

/-- Trig oracle whose rotations are the identity (cos = 1, sin = 0); used
only to instantiate theorems that hold for every oracle. -/
def trigConst : Trig := ⟨fun _ => 1, fun _ => 0, 0⟩

/-- Constant uniform draw 1 (the top of the `rand()` range). -/
def rngOne : ℕ → ℚ := fun _ => 1

/-- Constant uniform draw 1/2. -/
def rngHalf : ℕ → ℚ := fun _ => 1/2

/-- An arbitrary bullet node, used as the irrelevant default of `List.getD`. -/
def arbBulletNode : BulletNode :=
  ⟨newBullet BulletMovementDirection.up (newBulletPosition 0 0 0)
    (newBulletSize 0 0 0) ⟨0, 0⟩ BulletOwner.player 0 0, 0⟩

/-- An arbitrary unit, used as the irrelevant default of `List.getD`. -/
def arbUnit : Unit :=
  ⟨UnitType.enemy, newUnitState,
   ⟨⟨0, 0, 0, 300, 0, 0, 0, false⟩, ⟨6, 6⟩, none, 0, true⟩, ⟨⟨2, 2, 2⟩⟩⟩

/-- The scenario bullet of the spec (Scenario A): spawned at the origin,
direction up, speed 1, acceleration 0, player-owned. -/
def scenarioBulletA : Bullet :=
  newBullet BulletMovementDirection.up (newBulletPosition 0 0 0)
    (newBulletSize (1/4) (1/4) 2) (newBulletParameters 20 10)
    BulletOwner.player 0 1

/-- An enemy-owned bullet at the origin (concrete instance for the
player-hit pass). -/
def scenarioEnemyBullet : Bullet :=
  newBullet BulletMovementDirection.down (newBulletPosition 0 0 0)
    (newBulletSize (1/4) (1/4) 2) (newBulletParameters 20 10)
    BulletOwner.unit 0 1

/-- A concrete player at the origin with a 2×2×2 model box and neutral
rotation. -/
def scenarioPlayer : Player :=
  ⟨UnitType.solder, newUnitState,
   ⟨⟨0, 0, 0, 10, 10, -10, 0⟩, ⟨6, 6⟩, ⟨0, 0, 0, 1, 1, 1, 0, 15, 10, 0, 15⟩⟩,
   ⟨⟨2, 2, 2⟩⟩⟩

/-- The rng-stream bound for `rand() / RAND_MAX`: every draw lies in
`[0, 1]`. -/
def rngOk (rng : ℕ → ℚ) : Prop := ∀ n, 0 ≤ rng n ∧ rng n ≤ 1

/-- State invariant of the movement oscillator: the direction mask fits a
`uint8_t`, the bounds are nonnegative, every step lies in the draw range
`[0.01, 0.05]`, and every accumulated offset is within its bound plus one
maximal step. -/
def MoveInv (a : MovementAction) : Prop :=
  a.direction < 256 ∧
  0 ≤ a.max_x ∧ 0 ≤ a.max_y ∧ 0 ≤ a.max_z ∧
  1/100 ≤ a.step_x ∧ a.step_x ≤ 1/20 ∧
  1/100 ≤ a.step_y ∧ a.step_y ≤ 1/20 ∧
  1/100 ≤ a.step_z ∧ a.step_z ≤ 1/20 ∧
  |a.x| ≤ a.max_x + 1/20 ∧ |a.y| ≤ a.max_y + 1/20 ∧ |a.z| ≤ a.max_z + 1/20

/-- Indices mentioned by a kill-pair log. -/
def pairIndices (log : List (ℕ × ℕ)) : List ℕ :=
  log.flatMap fun p => [p.1, p.2]

/-- A concrete movement action whose X offset has just overshot its bound
(direction right + backward, offset 21/20 against bound 1). -/
def cexActionX : MovementAction :=
  ⟨34, 1/20, 1/20, 1/20, 0, 0, 0, 10, 0, 15, 15, 0, 1, 1, 1, 21/20, 0, 0⟩

/-- A concrete movement action whose Y offset has just overshot its bound
(direction up + backward). -/
def cexActionY : MovementAction :=
  ⟨36, 1/20, 1/20, 1/20, 0, 0, 0, 10, 0, 15, 15, 0, 1, 1, 1, 0, 21/20, 0⟩

/-- A concrete movement action whose Z offset has just overshot its bound
(direction right + backward). -/
def cexActionZ : MovementAction :=
  ⟨34, 1/20, 1/20, 1/20, 0, 0, 0, 10, 0, 15, 15, 0, 1, 1, 1, 0, 0, 21/20⟩

/-- A concrete two-node bullet list (one alive node, one dead node) used to
instantiate the reap theorem. -/
def sampleBulletList : BulletList :=
  ⟨[⟨scenarioBulletA, 1⟩, ⟨{ scenarioBulletA with alive := false }, 2⟩], 2, 2,
   0, newBulletAreaFrame⟩

/-- A concrete one-node unit list used to instantiate the reap theorem. -/
def sampleUnitList : UnitList := ⟨[arbUnit], 1⟩

/-- The effective collision radius in the spec's wording: the max of the
bullet's shape radii, or half its largest planar extent if both radii are
zero. -/
def specEffectiveRadius (b : Bullet) : ℚ :=
  if b.size.radius_top = 0 ∧ b.size.radius_bottom = 0 then
    (1/2) * max b.size.by_x b.size.by_z
  else max b.size.radius_top b.size.radius_bottom

/-- Scenario C: a two-node bullet list whose bullets share one owner and
overlap in the XZ plane. -/
def sameOwnerPairList : BulletList :=
  ⟨[⟨scenarioBulletA, 1⟩, ⟨scenarioBulletA, 2⟩], 2, 2, 0, newBulletAreaFrame⟩

/-! ## Theorems -/

/-- The bullet-removal loop keeps exactly the alive nodes, in order. -/
theorem removeBulletsGo_eq_filter (l : List BulletNode) :
    removeBulletsGo l = l.filter (fun n => n.self.alive) := by
  induction l with
  | nil => rfl
  | cons n rest ih =>
    simp only [removeBulletsGo, ih]
    cases h : n.self.alive <;> simp [List.filter_cons, h]

/-- The unit-removal loop keeps exactly the visible units, in order. -/
theorem removeUnitsGo_eq_filter (l : List Unit) :
    removeUnitsGo l = l.filter (fun u => u.render.visible) := by
  induction l with
  | nil => rfl
  | cons u rest ih =>
    simp only [removeUnitsGo, ih]
    cases h : u.render.visible <;> simp [List.filter_cons, h]

/-- Alive-filter length plus dead count equals the total length. -/
theorem filter_alive_length_add (l : List BulletNode) :
    (l.filter (fun n => n.self.alive)).length +
      l.countP (fun n => n.self.alive = false) = l.length := by
  induction l with
  | nil => rfl
  | cons n rest ih =>
    cases h : n.self.alive <;>
      simp [List.filter_cons, List.countP_cons, h, ← ih] <;> omega

/-- Visible-filter length plus invisible count equals the total length. -/
theorem filter_visible_length_add (l : List Unit) :
    (l.filter (fun u => u.render.visible)).length +
      l.countP (fun u => u.render.visible = false) = l.length := by
  induction l with
  | nil => rfl
  | cons u rest ih =>
    cases h : u.render.visible <;>
      simp [List.filter_cons, List.countP_cons, h, ← ih] <;> omega

/-- C4: on a well-formed pool (`length` = number of nodes), one sweep keeps
precisely the nodes whose liveness flag is true, in their original relative
order, with the length decremented once per removed node; a node whose flag
is false is absent from every subsequent forward traversal.  The same holds
for the unit pool with its `visible` flag. -/
theorem removeBullets_reap (list : BulletList) (ulist : UnitList)
    (h : list.length = list.nodes.length)
    (hu : ulist.length = ulist.nodes.length) :
    (removeBullets list).nodes = list.nodes.filter (fun n => n.self.alive) ∧
    (removeBullets list).nodes.Sublist list.nodes ∧
    (removeBullets list).length = (removeBullets list).nodes.length ∧
    (∀ n ∈ list.nodes, n.self.alive = false →
      n ∉ (removeBullets list).nodes) ∧
    (removeUnits ulist).nodes = ulist.nodes.filter (fun u => u.render.visible) ∧
    (removeUnits ulist).length = (removeUnits ulist).nodes.length := by
  have hb := filter_alive_length_add list.nodes
  have hv := filter_visible_length_add ulist.nodes
  refine ⟨?_, ?_, ?_, ?_, ?_, ?_⟩
  · simp [removeBullets, removeBulletsGo_eq_filter]
  · simp only [removeBullets, removeBulletsGo_eq_filter]
    exact List.filter_sublist _
  · simp only [removeBullets, removeBulletsGo_eq_filter, h]
    omega
  · intro n hn hdead hmem
    simp only [removeBullets, removeBulletsGo_eq_filter] at hmem
    have := (List.mem_filter.mp hmem).2
    simp [hdead] at this
  · simp [removeUnits, removeUnitsGo_eq_filter]
  · simp only [removeUnits, removeUnitsGo_eq_filter, hu]
    omega

/-- Witness for C4 at a concrete two-bullet pool and one-unit pool. -/
theorem removeBullets_reap_witness :
    (removeBullets sampleBulletList).nodes =
      sampleBulletList.nodes.filter (fun n => n.self.alive) ∧
    (removeBullets sampleBulletList).nodes.Sublist sampleBulletList.nodes ∧
    (removeBullets sampleBulletList).length =
      (removeBullets sampleBulletList).nodes.length ∧
    (∀ n ∈ sampleBulletList.nodes, n.self.alive = false →
      n ∉ (removeBullets sampleBulletList).nodes) ∧
    (removeUnits sampleUnitList).nodes =
      sampleUnitList.nodes.filter (fun u => u.render.visible) ∧
    (removeUnits sampleUnitList).length =
      (removeUnits sampleUnitList).nodes.length :=
  removeBullets_reap sampleBulletList sampleUnitList rfl rfl

/-- C2: damage application saturates at zero: the new health (resp. energy)
is `max 0 (h - d)`, never exceeds the old value, and is exactly zero whenever
the damage exceeds the old value. -/
theorem hitUnitState_saturating (s : UnitState) (p : BulletParameters)
    (now : ℚ) :
    ((hitUnitState s p now).health : ℤ) =
      max 0 ((s.health : ℤ) - (p.health : ℤ)) ∧
    ((hitUnitState s p now).energy : ℤ) =
      max 0 ((s.energy : ℤ) - (p.energy : ℤ)) ∧
    (hitUnitState s p now).health ≤ s.health ∧
    (hitUnitState s p now).energy ≤ s.energy ∧
    (s.health < p.health → (hitUnitState s p now).health = 0) ∧
    (s.energy < p.energy → (hitUnitState s p now).energy = 0) := by
  simp only [hitUnitState]
  split_ifs <;> simp_all <;> omega

/-- Witness for C2: Scenario B of the spec, health 100 and energy 100 hit by
damage (20, 10). -/
theorem hitUnitState_saturating_witness :
    ((hitUnitState newUnitState ⟨20, 10⟩ 1).health : ℤ) =
      max 0 ((newUnitState.health : ℤ) - (20 : ℤ)) ∧
    ((hitUnitState newUnitState ⟨20, 10⟩ 1).energy : ℤ) =
      max 0 ((newUnitState.energy : ℤ) - (10 : ℤ)) ∧
    (hitUnitState newUnitState ⟨20, 10⟩ 1).health ≤ newUnitState.health ∧
    (hitUnitState newUnitState ⟨20, 10⟩ 1).energy ≤ newUnitState.energy :=
  ⟨(hitUnitState_saturating newUnitState ⟨20, 10⟩ 1).1,
   (hitUnitState_saturating newUnitState ⟨20, 10⟩ 1).2.1,
   (hitUnitState_saturating newUnitState ⟨20, 10⟩ 1).2.2.1,
   (hitUnitState_saturating newUnitState ⟨20, 10⟩ 1).2.2.2.1⟩

set_option maxHeartbeats 2000000 in
/-- C7 (Scenario A): the bullet spawned at z = 0 moving up with speed 1 and
acceleration 0, against the default frame (top −60, bottom 60), is still
alive after 60 update ticks, and after 61 ticks sits at z = −61 ≤ −60 with
its alive flag false. -/
theorem updateBullet_scenarioA :
    ((updateBulletN newBulletAreaFrame 61
        (some scenarioBulletA, newGameStat)).1.map
      fun b => (b.position.z, b.alive)) = some (-61, false) ∧
    (-61 : ℚ) ≤ -60 ∧
    ((updateBulletN newBulletAreaFrame 60
        (some scenarioBulletA, newGameStat)).1.map fun b => b.alive) =
      some true := by
  refine ⟨?_, by norm_num, ?_⟩ <;>
    norm_num [updateBulletN, updateBullet, scenarioBulletA, newBullet,
      newBulletMovement, newBulletPosition, newBulletSize,
      newBulletParameters, newBulletAreaFrame, newGameStat,
      addMissIntoGameStat, newTrailEmitter]

/-- C9: spawning into the bullet list is a silent no-op on allocation
failure (nodes, head, tail and length all unchanged), and on success appends
exactly one node at the tail carrying the next spawn index. -/
theorem insertBulletIntoList_alloc (list : BulletList) (bullet : Bullet) :
    (insertBulletIntoList list bullet false).nodes = list.nodes ∧
    (insertBulletIntoList list bullet false).length = list.length ∧
    (insertBulletIntoList list bullet false).nodes.head? = list.nodes.head? ∧
    (insertBulletIntoList list bullet false).nodes.getLast? =
      list.nodes.getLast? ∧
    (insertBulletIntoList list bullet true).nodes =
      list.nodes ++ [⟨bullet, list.idx + 1⟩] ∧
    (insertBulletIntoList list bullet true).length = list.length + 1 ∧
    (insertBulletIntoList list bullet true).idx = list.idx + 1 ∧
    (insertBulletIntoList list bullet true).nodes.getLast? =
      some ⟨bullet, list.idx + 1⟩ := by
  simp [insertBulletIntoList]

/-- C10: `updateBullet` on a null pointer or a dead bullet changes nothing
(bullet and statistics both unchanged); non-player bullets never touch the
statistics; a live player bullet whose updated z leaves the frame records
exactly one miss. -/
theorem updateBullet_inert_and_miss :
    (∀ frame stat, updateBullet none frame stat = (none, stat)) ∧
    (∀ (b : Bullet) frame stat, b.alive = false →
        updateBullet (some b) frame stat = (some b, stat)) ∧
    (∀ (b : Bullet) frame stat, b.owner ≠ BulletOwner.player →
        (updateBullet (some b) frame stat).2 = stat) ∧
    (∀ (b : Bullet) frame stat, b.alive = true →
        b.owner = BulletOwner.player →
        (b.position.z + (b.movement.speed + b.movement.acceleration) *
            b.movement.dir.z < frame.top ∨
         b.position.z + (b.movement.speed + b.movement.acceleration) *
            b.movement.dir.z > frame.bottom) →
        (updateBullet (some b) frame stat).2 = addMissIntoGameStat stat) := by
  refine ⟨fun frame stat => rfl, ?_, ?_, ?_⟩
  · intro b frame stat hb
    simp [updateBullet, hb]
  · intro b frame stat hb
    simp only [updateBullet]
    split_ifs <;> simp_all
  · intro b frame stat halive howner hout
    simp only [updateBullet]
    split_ifs <;> simp_all

/-- Witness for C10 at concrete bullets and frames. -/
theorem updateBullet_inert_and_miss_witness :
    updateBullet none newBulletAreaFrame newGameStat = (none, newGameStat) ∧
    updateBullet (some { scenarioBulletA with alive := false })
        newBulletAreaFrame newGameStat =
      (some { scenarioBulletA with alive := false }, newGameStat) ∧
    (updateBullet (some scenarioEnemyBullet) newBulletAreaFrame
        newGameStat).2 = newGameStat ∧
    (updateBullet (some scenarioBulletA) ⟨0, 0⟩ newGameStat).2 =
      addMissIntoGameStat newGameStat :=
  ⟨updateBullet_inert_and_miss.1 newBulletAreaFrame newGameStat,
   updateBullet_inert_and_miss.2.1 _ newBulletAreaFrame newGameStat rfl,
   updateBullet_inert_and_miss.2.2.1 _ newBulletAreaFrame newGameStat
     (by decide),
   updateBullet_inert_and_miss.2.2.2 _ ⟨0, 0⟩ newGameStat rfl rfl
     (by norm_num [scenarioBulletA, newBullet, newBulletMovement,
       newBulletPosition])⟩

/-- The spawn loop never pushes the particle count past the capacity. -/
theorem trailEmitLoop_count_le (rng : ℕ → ℚ) (origin dir : Vec3)
    (e : TrailEmitter) (k : ℕ) (h : e.count ≤ TRAIL_MAX) :
    (trailEmitLoop rng origin dir e k).1.count ≤ TRAIL_MAX := by
  induction e, k using trailEmitLoop.induct rng origin dir with
  | case1 e k hcond ih =>
    rw [trailEmitLoop, dif_pos hcond]
    refine ih ?_
    simp only [TRAIL_MAX] at hcond ⊢
    omega
  | case2 e k hcond =>
    rw [trailEmitLoop, dif_neg hcond]
    exact h

/-- The spawn loop keeps the count equal to the number of stored
particles. -/
theorem trailEmitLoop_count_length (rng : ℕ → ℚ) (origin dir : Vec3)
    (e : TrailEmitter) (k : ℕ) (h : e.count = e.p.length) :
    (trailEmitLoop rng origin dir e k).1.count =
      (trailEmitLoop rng origin dir e k).1.p.length := by
  induction e, k using trailEmitLoop.induct rng origin dir with
  | case1 e k hcond ih =>
    rw [trailEmitLoop, dif_pos hcond]
    exact ih (by simp [h])
  | case2 e k hcond =>
    rw [trailEmitLoop, dif_neg hcond]
    exact h

/-- Closed form of the spawn loop: starting from a nonnegative accumulator,
it spawns `min ⌊accum⌋ (capacity left)` particles, decrementing the
accumulator once per particle. -/
theorem trailEmitLoop_closed (rng : ℕ → ℚ) (origin dir : Vec3)
    (e : TrailEmitter) (k : ℕ) (hc : e.count ≤ TRAIL_MAX)
    (ha : 0 ≤ e.accum) :
    (trailEmitLoop rng origin dir e k).1.count =
      min (e.count + (⌊e.accum⌋).toNat) TRAIL_MAX ∧
    (trailEmitLoop rng origin dir e k).1.accum =
      e.accum - (((trailEmitLoop rng origin dir e k).1.count - e.count : ℕ) : ℚ) := by
  induction e, k using trailEmitLoop.induct rng origin dir with
  | case1 e k hcond ih =>
    obtain ⟨h1, h2⟩ := hcond
    have hfloor : 1 ≤ ⌊e.accum⌋ := by
      exact_mod_cast Int.le_floor.mpr (by exact_mod_cast h1)
    have hsub : ⌊e.accum - 1⌋ = ⌊e.accum⌋ - 1 := by
      exact_mod_cast Int.floor_sub_int e.accum 1
    have hrec := ih
      (by show e.count + 1 ≤ TRAIL_MAX; simp only [TRAIL_MAX] at h2 ⊢; omega)
      (by show (0 : ℚ) ≤ e.accum - 1; linarith)
    rw [trailEmitLoop, dif_pos ⟨h1, h2⟩]
    simp only at hrec
    obtain ⟨hcount, haccum⟩ := hrec
    constructor
    · rw [hcount]
      simp only [hsub]
      have ht : (⌊e.accum⌋ - 1).toNat = (⌊e.accum⌋).toNat - 1 := by omega
      have ht1 : 1 ≤ (⌊e.accum⌋).toNat := by omega
      congr 1
      omega
    · rw [haccum]
      have hge : e.count + 1 ≤ (trailEmitLoop rng origin dir
          { e with p := e.p ++ [newTrailParticle e origin dir rng k]
                   count := e.count + 1
                   accum := e.accum - 1 } (k + 6)).1.count := by
        rw [hcount]
        simp only [hsub]
        have : (⌊e.accum⌋ - 1).toNat = (⌊e.accum⌋).toNat - 1 := by omega
        simp only [TRAIL_MAX] at h2 ⊢
        omega
      set c := (trailEmitLoop rng origin dir
          { e with p := e.p ++ [newTrailParticle e origin dir rng k]
                   count := e.count + 1
                   accum := e.accum - 1 } (k + 6)).1.count with hcdef
      have hcast : ((c - e.count : ℕ) : ℚ) = ((c - (e.count + 1) : ℕ) : ℚ) + 1 := by
        have hsplit : c - e.count = (c - (e.count + 1)) + 1 := by omega
        rw [hsplit]
        push_cast
        ring
      rw [hcast]
      ring
  | case2 e k hcond =>
    rw [trailEmitLoop, dif_neg hcond]
    rcases Decidable.not_and_iff_or_not.mp hcond with h1 | h2
    · have : ⌊e.accum⌋ = 0 := by
        rw [Int.floor_eq_zero_iff]
        constructor
        · exact_mod_cast ha
        · push_neg at h1
          exact_mod_cast h1
      simp [this, Nat.min_eq_left hc]
    · have hc128 : e.count = TRAIL_MAX := by omega
      constructor
      · rw [hc128]
        have : TRAIL_MAX ≤ TRAIL_MAX + (⌊e.accum⌋).toNat := by omega
        omega
      · simp

/-- C8: across every sequence of emit/update calls from a fresh emitter the
live particle count never exceeds `TRAIL_MAX` = 128 (and, being a count of
stored particles, is never negative); and one emit call first adds
`spawnRate * dt` to the accumulator and then creates exactly one particle
per unit of accumulator while the accumulator is at least one and capacity
remains: the new count is `min (count + ⌊accum + spawnRate⬝dt⌋) TRAIL_MAX`
and the accumulator decreases by one per created particle. -/
theorem trailEmitter_capacity_and_cadence :
    (∀ (additive : Bool) (ops : List TrailOp),
        (applyTrailOps ops (newTrailEmitter additive)).count ≤ TRAIL_MAX ∧
        (applyTrailOps ops (newTrailEmitter additive)).count =
          (applyTrailOps ops (newTrailEmitter additive)).p.length) ∧
    (∀ (rng : ℕ → ℚ) (k : ℕ) (origin dir : Vec3) (dt : ℚ) (e : TrailEmitter),
        e.count ≤ TRAIL_MAX → 0 ≤ e.accum + e.spawnRate * dt →
        (trailEmit rng e origin dir dt k).1.count =
          min (e.count + (⌊e.accum + e.spawnRate * dt⌋).toNat) TRAIL_MAX ∧
        (trailEmit rng e origin dir dt k).1.accum =
          e.accum + e.spawnRate * dt -
            (((trailEmit rng e origin dir dt k).1.count - e.count : ℕ) : ℚ)) := by
  constructor
  · have key : ∀ (ops : List TrailOp) (e : TrailEmitter),
        e.count ≤ TRAIL_MAX → e.count = e.p.length →
        (applyTrailOps ops e).count ≤ TRAIL_MAX ∧
        (applyTrailOps ops e).count = (applyTrailOps ops e).p.length := by
      intro ops
      induction ops with
      | nil => intro e h1 h2; exact ⟨h1, h2⟩
      | cons op rest ih =>
        intro e h1 h2
        cases op with
        | emit rng k origin dir dt =>
          refine ih _ ?_ ?_
          · exact trailEmitLoop_count_le rng origin dir _ k (by simpa using h1)
          · exact trailEmitLoop_count_length rng origin dir _ k
              (by simpa using h2)
        | update dt =>
          refine ih _ ?_ rfl
          calc ((e.p.map (trailUpdateParticle e dt)).filterMap _).length
              ≤ (e.p.map (trailUpdateParticle e dt)).length :=
                List.length_filterMap_le _ _
            _ = e.p.length := List.length_map _ _
            _ ≤ TRAIL_MAX := h2 ▸ h1
    exact fun additive ops => key ops (newTrailEmitter additive)
      (by simp [newTrailEmitter, TRAIL_MAX]) (by simp [newTrailEmitter])
  · intro rng k origin dir dt e hc ha
    have h := trailEmitLoop_closed rng origin dir
      { e with accum := e.accum + e.spawnRate * dt } k (by simpa using hc)
      (by simpa using ha)
    simpa [trailEmit] using h

/-- Witness for C8: a concrete emit followed by an update, and the emit
characterization at a fresh emitter with dt = 1/30 (two particles
spawned). -/
theorem trailEmitter_capacity_and_cadence_witness :
    (applyTrailOps
        [TrailOp.emit rngHalf 0 ⟨0, 0, 0⟩ ⟨0, 0, 1⟩ (1/30),
         TrailOp.update (1/60)] (newTrailEmitter true)).count ≤ TRAIL_MAX ∧
    (trailEmit rngHalf (newTrailEmitter true) ⟨0, 0, 0⟩ ⟨0, 0, 1⟩ (1/30)
        0).1.count =
      min ((newTrailEmitter true).count +
        (⌊(newTrailEmitter true).accum +
          (newTrailEmitter true).spawnRate * (1/30)⌋).toNat) TRAIL_MAX :=
  ⟨(trailEmitter_capacity_and_cadence.1 true
      [TrailOp.emit rngHalf 0 ⟨0, 0, 0⟩ ⟨0, 0, 1⟩ (1/30),
       TrailOp.update (1/60)]).1,
   (trailEmitter_capacity_and_cadence.2 rngHalf 0 ⟨0, 0, 0⟩ ⟨0, 0, 1⟩ (1/30)
      (newTrailEmitter true) (by norm_num [newTrailEmitter, TRAIL_MAX])
      (by norm_num [newTrailEmitter])).1⟩

set_option maxHeartbeats 4000000 in
set_option maxRecDepth 4000 in
/-- C5 counterexample: from a freshly initialised movement action (direction
right + backward, every random draw at the top of the range so each step is
0.05, bound 1), 21 frames drive the X offset to 1.05, strictly above the
configured bound 1 — the offset is not clamped on the frame that crosses the
bound, only on the next one. -/
theorem iterateMovementAction_exceeds_bound :
    ((iterateMovementActionN rngOne 21
        (newMovementAction false false rngOne 0)).1.x,
     (iterateMovementActionN rngOne 21
        (newMovementAction false false rngOne 0)).1.max_x) = (21/20, 1) ∧
    (1 : ℚ) < 21/20 := by
  refine ⟨?_, by norm_num⟩
  norm_num [iterateMovementActionN, iterateMovementAction, iterateMovementX,
      iterateMovementY, iterateMovementZ, newMovementAction,
      randSpeedMovementAction, randomFloatInRange, rngOne, fabsf,
      MOVEMENT_X_MASK, MOVEMENT_Y_MASK, MOVEMENT_Z_MASK,
      MOVEMENT_DIRECTION_LEFT, MOVEMENT_DIRECTION_RIGHT,
      MOVEMENT_DIRECTION_UP, MOVEMENT_DIRECTION_DOWN,
      MOVEMENT_DIRECTION_FORWARD, MOVEMENT_DIRECTION_BACKWARD, MOVEMENT_MAX,
      show (2 : ℕ) ||| 32 = 34 from by decide,
      show (1 : ℕ) ||| 2 = 3 from by decide,
      show (4 : ℕ) ||| 8 = 12 from by decide,
      show (16 : ℕ) ||| 32 = 48 from by decide,
      show (34 : ℕ) &&& 3 = 2 from by decide,
      show (34 : ℕ) &&& 1 = 0 from by decide,
      show (34 : ℕ) &&& 12 = 0 from by decide,
      show (34 : ℕ) &&& 48 = 32 from by decide,
      show (34 : ℕ) &&& 16 = 0 from by decide]

/-- `fabsf` agrees with the absolute value. -/
theorem fabsf_eq_abs (q : ℚ) : fabsf q = |q| := by
  unfold fabsf
  split_ifs with h
  · rw [abs_of_neg h]
  · rw [abs_of_nonneg (le_of_not_lt h)]

/-- A uniform draw in `[0, 1]` lands `randomFloatInRange 0.01 0.05` in
`[0.01, 0.05]`. -/
theorem randomFloatInRange_bounds (u : ℚ) (h0 : 0 ≤ u) (h1 : u ≤ 1) :
    1/100 ≤ randomFloatInRange (1/100) (1/20) u ∧
    randomFloatInRange (1/100) (1/20) u ≤ 1/20 := by
  unfold randomFloatInRange
  constructor <;> nlinarith

set_option maxRecDepth 8000

/-- Bit behaviour of the left-to-right direction flip on a `uint8_t` mask. -/
theorem bits_flip_left : ∀ d : ℕ, d < 256 →
    ((d &&& (255 ^^^ 1)) ||| 2) < 256 ∧
    ((d &&& (255 ^^^ 1)) ||| 2) &&& 3 = 2 ∧
    ((d &&& (255 ^^^ 1)) ||| 2) &&& 12 = d &&& 12 ∧
    ((d &&& (255 ^^^ 1)) ||| 2) &&& 4 = d &&& 4 ∧
    ((d &&& (255 ^^^ 1)) ||| 2) &&& 48 = d &&& 48 ∧
    ((d &&& (255 ^^^ 1)) ||| 2) &&& 16 = d &&& 16 := by decide

/-- Bit behaviour of the right-to-left direction flip. -/
theorem bits_flip_right : ∀ d : ℕ, d < 256 →
    ((d &&& (255 ^^^ 2)) ||| 1) < 256 ∧
    ((d &&& (255 ^^^ 2)) ||| 1) &&& 3 = 1 ∧
    ((d &&& (255 ^^^ 2)) ||| 1) &&& 12 = d &&& 12 ∧
    ((d &&& (255 ^^^ 2)) ||| 1) &&& 4 = d &&& 4 ∧
    ((d &&& (255 ^^^ 2)) ||| 1) &&& 48 = d &&& 48 ∧
    ((d &&& (255 ^^^ 2)) ||| 1) &&& 16 = d &&& 16 := by decide

/-- Bit behaviour of the up-to-down direction flip. -/
theorem bits_flip_up : ∀ d : ℕ, d < 256 →
    ((d &&& (255 ^^^ 4)) ||| 8) < 256 ∧
    ((d &&& (255 ^^^ 4)) ||| 8) &&& 12 = 8 ∧
    ((d &&& (255 ^^^ 4)) ||| 8) &&& 3 = d &&& 3 ∧
    ((d &&& (255 ^^^ 4)) ||| 8) &&& 1 = d &&& 1 ∧
    ((d &&& (255 ^^^ 4)) ||| 8) &&& 48 = d &&& 48 ∧
    ((d &&& (255 ^^^ 4)) ||| 8) &&& 16 = d &&& 16 := by decide

/-- Bit behaviour of the down-to-up direction flip. -/
theorem bits_flip_down : ∀ d : ℕ, d < 256 →
    ((d &&& (255 ^^^ 8)) ||| 4) < 256 ∧
    ((d &&& (255 ^^^ 8)) ||| 4) &&& 12 = 4 ∧
    ((d &&& (255 ^^^ 8)) ||| 4) &&& 3 = d &&& 3 ∧
    ((d &&& (255 ^^^ 8)) ||| 4) &&& 1 = d &&& 1 ∧
    ((d &&& (255 ^^^ 8)) ||| 4) &&& 48 = d &&& 48 ∧
    ((d &&& (255 ^^^ 8)) ||| 4) &&& 16 = d &&& 16 := by decide

/-- Bit behaviour of the forward-to-backward direction flip. -/
theorem bits_flip_forward : ∀ d : ℕ, d < 256 →
    ((d &&& (255 ^^^ 16)) ||| 32) < 256 ∧
    ((d &&& (255 ^^^ 16)) ||| 32) &&& 48 = 32 ∧
    ((d &&& (255 ^^^ 16)) ||| 32) &&& 3 = d &&& 3 ∧
    ((d &&& (255 ^^^ 16)) ||| 32) &&& 1 = d &&& 1 ∧
    ((d &&& (255 ^^^ 16)) ||| 32) &&& 12 = d &&& 12 ∧
    ((d &&& (255 ^^^ 16)) ||| 32) &&& 4 = d &&& 4 := by decide

/-- Bit behaviour of the backward-to-forward direction flip. -/
theorem bits_flip_backward : ∀ d : ℕ, d < 256 →
    ((d &&& (255 ^^^ 32)) ||| 16) < 256 ∧
    ((d &&& (255 ^^^ 32)) ||| 16) &&& 48 = 16 ∧
    ((d &&& (255 ^^^ 32)) ||| 16) &&& 3 = d &&& 3 ∧
    ((d &&& (255 ^^^ 32)) ||| 16) &&& 1 = d &&& 1 ∧
    ((d &&& (255 ^^^ 32)) ||| 16) &&& 12 = d &&& 12 ∧
    ((d &&& (255 ^^^ 32)) ||| 16) &&& 4 = d &&& 4 := by decide

/-- The X block leaves the other offsets and all bounds unchanged. -/
theorem iterateMovementX_untouched (rng : ℕ → ℚ) (s : MovementAction × ℕ) :
    (iterateMovementX rng s).1.y = s.1.y ∧
    (iterateMovementX rng s).1.z = s.1.z ∧
    (iterateMovementX rng s).1.max_x = s.1.max_x ∧
    (iterateMovementX rng s).1.max_y = s.1.max_y ∧
    (iterateMovementX rng s).1.max_z = s.1.max_z := by
  obtain ⟨a, k⟩ := s
  simp only [iterateMovementX]
  split_ifs <;> simp [randSpeedMovementAction]

/-- The Y block leaves the other offsets and all bounds unchanged. -/
theorem iterateMovementY_untouched (rng : ℕ → ℚ) (s : MovementAction × ℕ) :
    (iterateMovementY rng s).1.x = s.1.x ∧
    (iterateMovementY rng s).1.z = s.1.z ∧
    (iterateMovementY rng s).1.max_x = s.1.max_x ∧
    (iterateMovementY rng s).1.max_y = s.1.max_y ∧
    (iterateMovementY rng s).1.max_z = s.1.max_z := by
  obtain ⟨a, k⟩ := s
  simp only [iterateMovementY]
  split_ifs <;> simp [randSpeedMovementAction]

/-- The Z block leaves the other offsets and all bounds unchanged. -/
theorem iterateMovementZ_untouched (rng : ℕ → ℚ) (s : MovementAction × ℕ) :
    (iterateMovementZ rng s).1.x = s.1.x ∧
    (iterateMovementZ rng s).1.y = s.1.y ∧
    (iterateMovementZ rng s).1.max_x = s.1.max_x ∧
    (iterateMovementZ rng s).1.max_y = s.1.max_y ∧
    (iterateMovementZ rng s).1.max_z = s.1.max_z := by
  obtain ⟨a, k⟩ := s
  simp only [iterateMovementZ]
  split_ifs <;> simp [randSpeedMovementAction]

/-- The X block either keeps the direction mask or applies one horizontal
flip. -/
theorem iterateMovementX_direction (rng : ℕ → ℚ) (s : MovementAction × ℕ) :
    (iterateMovementX rng s).1.direction = s.1.direction ∨
    (iterateMovementX rng s).1.direction =
      (s.1.direction &&& (255 ^^^ 1)) ||| 2 ∨
    (iterateMovementX rng s).1.direction =
      (s.1.direction &&& (255 ^^^ 2)) ||| 1 := by
  obtain ⟨a, k⟩ := s
  simp only [iterateMovementX, MOVEMENT_DIRECTION_LEFT,
    MOVEMENT_DIRECTION_RIGHT]
  split_ifs <;> simp [randSpeedMovementAction]

/-- The Y block either keeps the direction mask or applies one vertical
flip. -/
theorem iterateMovementY_direction (rng : ℕ → ℚ) (s : MovementAction × ℕ) :
    (iterateMovementY rng s).1.direction = s.1.direction ∨
    (iterateMovementY rng s).1.direction =
      (s.1.direction &&& (255 ^^^ 4)) ||| 8 ∨
    (iterateMovementY rng s).1.direction =
      (s.1.direction &&& (255 ^^^ 8)) ||| 4 := by
  obtain ⟨a, k⟩ := s
  simp only [iterateMovementY, MOVEMENT_DIRECTION_UP, MOVEMENT_DIRECTION_DOWN]
  split_ifs <;> simp [randSpeedMovementAction]

/-- The Z block either keeps the direction mask or applies one depth flip. -/
theorem iterateMovementZ_direction (rng : ℕ → ℚ) (s : MovementAction × ℕ) :
    (iterateMovementZ rng s).1.direction = s.1.direction ∨
    (iterateMovementZ rng s).1.direction =
      (s.1.direction &&& (255 ^^^ 16)) ||| 32 ∨
    (iterateMovementZ rng s).1.direction =
      (s.1.direction &&& (255 ^^^ 32)) ||| 16 := by
  obtain ⟨a, k⟩ := s
  simp only [iterateMovementZ, MOVEMENT_DIRECTION_FORWARD,
    MOVEMENT_DIRECTION_BACKWARD]
  split_ifs <;> simp [randSpeedMovementAction]

/-- The masks as numerals. -/
theorem MOVEMENT_X_MASK_eq : MOVEMENT_X_MASK = 3 := by decide

/-- The Y mask as a numeral. -/
theorem MOVEMENT_Y_MASK_eq : MOVEMENT_Y_MASK = 12 := by decide

/-- The Z mask as a numeral. -/
theorem MOVEMENT_Z_MASK_eq : MOVEMENT_Z_MASK = 48 := by decide

/-- The X block keeps the direction mask inside `uint8_t` range. -/
theorem iterateMovementX_direction_lt (rng : ℕ → ℚ) (s : MovementAction × ℕ)
    (hd : s.1.direction < 256) : (iterateMovementX rng s).1.direction < 256 := by
  rcases iterateMovementX_direction rng s with h | h | h <;> rw [h]
  · exact hd
  · exact (bits_flip_left _ hd).1
  · exact (bits_flip_right _ hd).1

/-- The Y block keeps the direction mask inside `uint8_t` range. -/
theorem iterateMovementY_direction_lt (rng : ℕ → ℚ) (s : MovementAction × ℕ)
    (hd : s.1.direction < 256) : (iterateMovementY rng s).1.direction < 256 := by
  rcases iterateMovementY_direction rng s with h | h | h <;> rw [h]
  · exact hd
  · exact (bits_flip_up _ hd).1
  · exact (bits_flip_down _ hd).1

/-- The Z block keeps the direction mask inside `uint8_t` range. -/
theorem iterateMovementZ_direction_lt (rng : ℕ → ℚ) (s : MovementAction × ℕ)
    (hd : s.1.direction < 256) : (iterateMovementZ rng s).1.direction < 256 := by
  rcases iterateMovementZ_direction rng s with h | h | h <;> rw [h]
  · exact hd
  · exact (bits_flip_forward _ hd).1
  · exact (bits_flip_backward _ hd).1

/-- The X block never changes the Y/Z direction bits. -/
theorem iterateMovementX_preserve (rng : ℕ → ℚ) (s : MovementAction × ℕ)
    (hd : s.1.direction < 256) :
    (iterateMovementX rng s).1.direction &&& 12 = s.1.direction &&& 12 ∧
    (iterateMovementX rng s).1.direction &&& 4 = s.1.direction &&& 4 ∧
    (iterateMovementX rng s).1.direction &&& 48 = s.1.direction &&& 48 ∧
    (iterateMovementX rng s).1.direction &&& 16 = s.1.direction &&& 16 := by
  rcases iterateMovementX_direction rng s with h | h | h <;> rw [h]
  · exact ⟨rfl, rfl, rfl, rfl⟩
  · have := bits_flip_left _ hd
    exact ⟨this.2.2.1, this.2.2.2.1, this.2.2.2.2.1, this.2.2.2.2.2⟩
  · have := bits_flip_right _ hd
    exact ⟨this.2.2.1, this.2.2.2.1, this.2.2.2.2.1, this.2.2.2.2.2⟩

/-- The Y block never changes the X/Z direction bits. -/
theorem iterateMovementY_preserve (rng : ℕ → ℚ) (s : MovementAction × ℕ)
    (hd : s.1.direction < 256) :
    (iterateMovementY rng s).1.direction &&& 3 = s.1.direction &&& 3 ∧
    (iterateMovementY rng s).1.direction &&& 1 = s.1.direction &&& 1 ∧
    (iterateMovementY rng s).1.direction &&& 48 = s.1.direction &&& 48 ∧
    (iterateMovementY rng s).1.direction &&& 16 = s.1.direction &&& 16 := by
  rcases iterateMovementY_direction rng s with h | h | h <;> rw [h]
  · exact ⟨rfl, rfl, rfl, rfl⟩
  · have := bits_flip_up _ hd
    exact ⟨this.2.2.1, this.2.2.2.1, this.2.2.2.2.1, this.2.2.2.2.2⟩
  · have := bits_flip_down _ hd
    exact ⟨this.2.2.1, this.2.2.2.1, this.2.2.2.2.1, this.2.2.2.2.2⟩

/-- The Z block never changes the X/Y direction bits. -/
theorem iterateMovementZ_preserve (rng : ℕ → ℚ) (s : MovementAction × ℕ)
    (hd : s.1.direction < 256) :
    (iterateMovementZ rng s).1.direction &&& 3 = s.1.direction &&& 3 ∧
    (iterateMovementZ rng s).1.direction &&& 1 = s.1.direction &&& 1 ∧
    (iterateMovementZ rng s).1.direction &&& 12 = s.1.direction &&& 12 ∧
    (iterateMovementZ rng s).1.direction &&& 4 = s.1.direction &&& 4 := by
  rcases iterateMovementZ_direction rng s with h | h | h <;> rw [h]
  · exact ⟨rfl, rfl, rfl, rfl⟩
  · have := bits_flip_forward _ hd
    exact ⟨this.2.2.1, this.2.2.2.1, this.2.2.2.2.1, this.2.2.2.2.2⟩
  · have := bits_flip_backward _ hd
    exact ⟨this.2.2.1, this.2.2.2.1, this.2.2.2.2.1, this.2.2.2.2.2⟩

/-- The X block keeps all three steps inside the draw range. -/
theorem iterateMovementX_steps (rng : ℕ → ℚ) (hrng : rngOk rng)
    (s : MovementAction × ℕ)
    (hx : 1/100 ≤ s.1.step_x ∧ s.1.step_x ≤ 1/20)
    (hy : 1/100 ≤ s.1.step_y ∧ s.1.step_y ≤ 1/20)
    (hz : 1/100 ≤ s.1.step_z ∧ s.1.step_z ≤ 1/20) :
    (1/100 ≤ (iterateMovementX rng s).1.step_x ∧
      (iterateMovementX rng s).1.step_x ≤ 1/20) ∧
    (1/100 ≤ (iterateMovementX rng s).1.step_y ∧
      (iterateMovementX rng s).1.step_y ≤ 1/20) ∧
    (1/100 ≤ (iterateMovementX rng s).1.step_z ∧
      (iterateMovementX rng s).1.step_z ≤ 1/20) := by
  obtain ⟨a, k⟩ := s
  simp only [iterateMovementX]
  split_ifs <;>
    first
      | exact ⟨hx, hy, hz⟩
      | exact ⟨randomFloatInRange_bounds _ (hrng k).1 (hrng k).2,
          randomFloatInRange_bounds _ (hrng (k+1)).1 (hrng (k+1)).2,
          randomFloatInRange_bounds _ (hrng (k+2)).1 (hrng (k+2)).2⟩

/-- The Y block keeps all three steps inside the draw range. -/
theorem iterateMovementY_steps (rng : ℕ → ℚ) (hrng : rngOk rng)
    (s : MovementAction × ℕ)
    (hx : 1/100 ≤ s.1.step_x ∧ s.1.step_x ≤ 1/20)
    (hy : 1/100 ≤ s.1.step_y ∧ s.1.step_y ≤ 1/20)
    (hz : 1/100 ≤ s.1.step_z ∧ s.1.step_z ≤ 1/20) :
    (1/100 ≤ (iterateMovementY rng s).1.step_x ∧
      (iterateMovementY rng s).1.step_x ≤ 1/20) ∧
    (1/100 ≤ (iterateMovementY rng s).1.step_y ∧
      (iterateMovementY rng s).1.step_y ≤ 1/20) ∧
    (1/100 ≤ (iterateMovementY rng s).1.step_z ∧
      (iterateMovementY rng s).1.step_z ≤ 1/20) := by
  obtain ⟨a, k⟩ := s
  simp only [iterateMovementY]
  split_ifs <;>
    first
      | exact ⟨hx, hy, hz⟩
      | exact ⟨randomFloatInRange_bounds _ (hrng k).1 (hrng k).2,
          randomFloatInRange_bounds _ (hrng (k+1)).1 (hrng (k+1)).2,
          randomFloatInRange_bounds _ (hrng (k+2)).1 (hrng (k+2)).2⟩

/-- The Z block keeps all three steps inside the draw range. -/
theorem iterateMovementZ_steps (rng : ℕ → ℚ) (hrng : rngOk rng)
    (s : MovementAction × ℕ)
    (hx : 1/100 ≤ s.1.step_x ∧ s.1.step_x ≤ 1/20)
    (hy : 1/100 ≤ s.1.step_y ∧ s.1.step_y ≤ 1/20)
    (hz : 1/100 ≤ s.1.step_z ∧ s.1.step_z ≤ 1/20) :
    (1/100 ≤ (iterateMovementZ rng s).1.step_x ∧
      (iterateMovementZ rng s).1.step_x ≤ 1/20) ∧
    (1/100 ≤ (iterateMovementZ rng s).1.step_y ∧
      (iterateMovementZ rng s).1.step_y ≤ 1/20) ∧
    (1/100 ≤ (iterateMovementZ rng s).1.step_z ∧
      (iterateMovementZ rng s).1.step_z ≤ 1/20) := by
  obtain ⟨a, k⟩ := s
  simp only [iterateMovementZ]
  split_ifs <;>
    first
      | exact ⟨hx, hy, hz⟩
      | exact ⟨randomFloatInRange_bounds _ (hrng k).1 (hrng k).2,
          randomFloatInRange_bounds _ (hrng (k+1)).1 (hrng (k+1)).2,
          randomFloatInRange_bounds _ (hrng (k+2)).1 (hrng (k+2)).2⟩

/-- Absolute value of a `±1` selector. -/
theorem abs_ite_sign (c : Prop) [Decidable c] :
    |(if c then (1 : ℚ) else -1)| = 1 := by
  split_ifs <;> norm_num

/-- Absolute value of a `∓1` selector. -/
theorem abs_ite_sign_neg (c : Prop) [Decidable c] :
    |(if c then (-1 : ℚ) else 1)| = 1 := by
  split_ifs <;> norm_num

/-- The X block keeps the X offset within its bound plus one maximal step. -/
theorem iterateMovementX_x_bound (rng : ℕ → ℚ) (s : MovementAction × ℕ)
    (hstep : 1/100 ≤ s.1.step_x ∧ s.1.step_x ≤ 1/20)
    (hmx : 0 ≤ s.1.max_x) (hbx : |s.1.x| ≤ s.1.max_x + 1/20) :
    |(iterateMovementX rng s).1.x| ≤ s.1.max_x + 1/20 := by
  obtain ⟨a, k⟩ := s
  have habs := abs_le.mp hbx
  simp only [iterateMovementX, randSpeedMovementAction]
  split_ifs with h1 h2 h3 h4 <;> dsimp only <;> rw [abs_le] <;> constructor <;>
    first
      | linarith [habs.1, habs.2]
      | linarith [hmx]
      | (have h2a := abs_le.mp ((fabsf_eq_abs a.x) ▸ h2)
         linarith [h2a.1, h2a.2, hstep.1, hstep.2])

/-- The Y block keeps the Y offset within its bound plus one maximal step. -/
theorem iterateMovementY_y_bound (rng : ℕ → ℚ) (s : MovementAction × ℕ)
    (hstep : 1/100 ≤ s.1.step_y ∧ s.1.step_y ≤ 1/20)
    (hmy : 0 ≤ s.1.max_y) (hby : |s.1.y| ≤ s.1.max_y + 1/20) :
    |(iterateMovementY rng s).1.y| ≤ s.1.max_y + 1/20 := by
  obtain ⟨a, k⟩ := s
  have habs := abs_le.mp hby
  simp only [iterateMovementY, randSpeedMovementAction]
  split_ifs with h1 h2 h3 h4 <;> dsimp only <;> rw [abs_le] <;> constructor <;>
    first
      | linarith [habs.1, habs.2]
      | linarith [hmy]
      | (have h2a := abs_le.mp ((fabsf_eq_abs a.y) ▸ h2)
         linarith [h2a.1, h2a.2, hstep.1, hstep.2])

/-- The Z block keeps the Z offset within its bound plus one maximal step. -/
theorem iterateMovementZ_z_bound (rng : ℕ → ℚ) (s : MovementAction × ℕ)
    (hstep : 1/100 ≤ s.1.step_z ∧ s.1.step_z ≤ 1/20)
    (hmz : 0 ≤ s.1.max_z) (hbz : |s.1.z| ≤ s.1.max_z + 1/20) :
    |(iterateMovementZ rng s).1.z| ≤ s.1.max_z + 1/20 := by
  obtain ⟨a, k⟩ := s
  have habs := abs_le.mp hbz
  simp only [iterateMovementZ, randSpeedMovementAction]
  split_ifs with h1 h2 h3 h4 <;> dsimp only <;> rw [abs_le] <;> constructor <;>
    first
      | linarith [habs.1, habs.2]
      | linarith [hmz]
      | (have h2a := abs_le.mp ((fabsf_eq_abs a.z) ▸ h2)
         linarith [h2a.1, h2a.2, hstep.1, hstep.2])

/-- The X block does not move the X offset when the X axis is inactive, and
in general never moves the Y/Z offsets; bundled as: the X offset of the
result either moved or clamped or stayed — here we only need the invariant
assembly, done in `iterateMovementX_inv`. -/
theorem iterateMovementX_inv (rng : ℕ → ℚ) (hrng : rngOk rng)
    (s : MovementAction × ℕ) (h : MoveInv s.1) :
    MoveInv (iterateMovementX rng s).1 := by
  obtain ⟨hd, hmx, hmy, hmz, hsx1, hsx2, hsy1, hsy2, hsz1, hsz2, hbx, hby,
    hbz⟩ := h
  have hu := iterateMovementX_untouched rng s
  have hsteps := iterateMovementX_steps rng hrng s ⟨hsx1, hsx2⟩ ⟨hsy1, hsy2⟩
    ⟨hsz1, hsz2⟩
  have hxb := iterateMovementX_x_bound rng s ⟨hsx1, hsx2⟩ hmx hbx
  refine ⟨iterateMovementX_direction_lt rng s hd, ?_, ?_, ?_,
    hsteps.1.1, hsteps.1.2, hsteps.2.1.1, hsteps.2.1.2, hsteps.2.2.1,
    hsteps.2.2.2, ?_, ?_, ?_⟩
  · rw [hu.2.2.1]; exact hmx
  · rw [hu.2.2.2.1]; exact hmy
  · rw [hu.2.2.2.2]; exact hmz
  · rw [hu.2.2.1]; exact hxb
  · rw [hu.1, hu.2.2.2.1]; exact hby
  · rw [hu.2.1, hu.2.2.2.2]; exact hbz

/-- The Y block preserves the oscillator invariant. -/
theorem iterateMovementY_inv (rng : ℕ → ℚ) (hrng : rngOk rng)
    (s : MovementAction × ℕ) (h : MoveInv s.1) :
    MoveInv (iterateMovementY rng s).1 := by
  obtain ⟨hd, hmx, hmy, hmz, hsx1, hsx2, hsy1, hsy2, hsz1, hsz2, hbx, hby,
    hbz⟩ := h
  have hu := iterateMovementY_untouched rng s
  have hsteps := iterateMovementY_steps rng hrng s ⟨hsx1, hsx2⟩ ⟨hsy1, hsy2⟩
    ⟨hsz1, hsz2⟩
  have hyb := iterateMovementY_y_bound rng s ⟨hsy1, hsy2⟩ hmy hby
  refine ⟨iterateMovementY_direction_lt rng s hd, ?_, ?_, ?_,
    hsteps.1.1, hsteps.1.2, hsteps.2.1.1, hsteps.2.1.2, hsteps.2.2.1,
    hsteps.2.2.2, ?_, ?_, ?_⟩
  · rw [hu.2.2.1]; exact hmx
  · rw [hu.2.2.2.1]; exact hmy
  · rw [hu.2.2.2.2]; exact hmz
  · rw [hu.1, hu.2.2.1]; exact hbx
  · rw [hu.2.2.2.1]; exact hyb
  · rw [hu.2.1, hu.2.2.2.2]; exact hbz

/-- The Z block preserves the oscillator invariant. -/
theorem iterateMovementZ_inv (rng : ℕ → ℚ) (hrng : rngOk rng)
    (s : MovementAction × ℕ) (h : MoveInv s.1) :
    MoveInv (iterateMovementZ rng s).1 := by
  obtain ⟨hd, hmx, hmy, hmz, hsx1, hsx2, hsy1, hsy2, hsz1, hsz2, hbx, hby,
    hbz⟩ := h
  have hu := iterateMovementZ_untouched rng s
  have hsteps := iterateMovementZ_steps rng hrng s ⟨hsx1, hsx2⟩ ⟨hsy1, hsy2⟩
    ⟨hsz1, hsz2⟩
  have hzb := iterateMovementZ_z_bound rng s ⟨hsz1, hsz2⟩ hmz hbz
  refine ⟨iterateMovementZ_direction_lt rng s hd, ?_, ?_, ?_,
    hsteps.1.1, hsteps.1.2, hsteps.2.1.1, hsteps.2.1.2, hsteps.2.2.1,
    hsteps.2.2.2, ?_, ?_, ?_⟩
  · rw [hu.2.2.1]; exact hmx
  · rw [hu.2.2.2.1]; exact hmy
  · rw [hu.2.2.2.2]; exact hmz
  · rw [hu.1, hu.2.2.1]; exact hbx
  · rw [hu.2.1, hu.2.2.2.1]; exact hby
  · rw [hu.2.2.2.2]; exact hzb

/-- One frame of the movement state machine preserves the invariant. -/
theorem iterateMovementAction_inv (rng : ℕ → ℚ) (hrng : rngOk rng)
    (s : MovementAction × ℕ) (h : MoveInv s.1) :
    MoveInv (iterateMovementAction rng s).1 :=
  iterateMovementZ_inv rng hrng _
    (iterateMovementY_inv rng hrng _ (iterateMovementX_inv rng hrng s h))

/-- One frame of the movement state machine never changes the bounds. -/
theorem iterateMovementAction_max (rng : ℕ → ℚ) (s : MovementAction × ℕ) :
    (iterateMovementAction rng s).1.max_x = s.1.max_x ∧
    (iterateMovementAction rng s).1.max_y = s.1.max_y ∧
    (iterateMovementAction rng s).1.max_z = s.1.max_z := by
  have h1 := iterateMovementX_untouched rng s
  have h2 := iterateMovementY_untouched rng (iterateMovementX rng s)
  have h3 := iterateMovementZ_untouched rng
    (iterateMovementY rng (iterateMovementX rng s))
  unfold iterateMovementAction
  refine ⟨?_, ?_, ?_⟩
  · rw [h3.2.2.1, h2.2.2.1, h1.2.2.1]
  · rw [h3.2.2.2.1, h2.2.2.2.1, h1.2.2.2.1]
  · rw [h3.2.2.2.2, h2.2.2.2.2, h1.2.2.2.2]

/-- Any number of frames preserves the invariant and the bounds. -/
theorem iterateMovementActionN_inv (rng : ℕ → ℚ) (hrng : rngOk rng) :
    ∀ (n : ℕ) (s : MovementAction × ℕ), MoveInv s.1 →
    MoveInv (iterateMovementActionN rng n s).1 ∧
    (iterateMovementActionN rng n s).1.max_x = s.1.max_x ∧
    (iterateMovementActionN rng n s).1.max_y = s.1.max_y ∧
    (iterateMovementActionN rng n s).1.max_z = s.1.max_z := by
  intro n
  induction n with
  | zero => exact fun s h => ⟨h, rfl, rfl, rfl⟩
  | succ n ih =>
    intro s h
    have hstep := iterateMovementAction_inv rng hrng s h
    have hmax := iterateMovementAction_max rng s
    have hih := ih (iterateMovementAction rng s) hstep
    simp only [iterateMovementActionN]
    exact ⟨hih.1, by rw [hih.2.1, hmax.1], by rw [hih.2.2.1, hmax.2.1],
      by rw [hih.2.2.2, hmax.2.2]⟩

/-- When the X offset has overshot its bound, the X block clamps it to the
signed bound and flips the horizontal direction. -/
theorem iterateMovementX_flip (rng : ℕ → ℚ) (s : MovementAction × ℕ)
    (hd : s.1.direction < 256)
    (h1 : s.1.direction &&& MOVEMENT_X_MASK ≠ 0)
    (h2 : s.1.max_x < fabsf s.1.x) :
    (iterateMovementX rng s).1.x =
      s.1.max_x * (if 0 < s.1.x then 1 else -1) ∧
    (iterateMovementX rng s).1.direction &&& 3 =
      (if s.1.direction &&& 1 ≠ 0 then 2 else 1) := by
  obtain ⟨a, k⟩ := s
  simp only [iterateMovementX, randSpeedMovementAction,
    MOVEMENT_DIRECTION_LEFT, MOVEMENT_DIRECTION_RIGHT] at h1 h2 ⊢
  rw [if_pos h1, if_neg (not_le.mpr h2)]
  constructor
  · split_ifs <;> rfl
  · split_ifs with h3 h4 <;>
      first
        | exact (bits_flip_left _ hd).2.1
        | exact (bits_flip_right _ hd).2.1

/-- When the Y offset has overshot its bound, the Y block clamps it to the
signed bound and flips the vertical direction. -/
theorem iterateMovementY_flip (rng : ℕ → ℚ) (s : MovementAction × ℕ)
    (hd : s.1.direction < 256)
    (h1 : s.1.direction &&& MOVEMENT_Y_MASK ≠ 0)
    (h2 : s.1.max_y < fabsf s.1.y) :
    (iterateMovementY rng s).1.y =
      s.1.max_y * (if 0 < s.1.y then 1 else -1) ∧
    (iterateMovementY rng s).1.direction &&& 12 =
      (if s.1.direction &&& 4 ≠ 0 then 8 else 4) := by
  obtain ⟨a, k⟩ := s
  simp only [iterateMovementY, randSpeedMovementAction,
    MOVEMENT_DIRECTION_UP, MOVEMENT_DIRECTION_DOWN] at h1 h2 ⊢
  rw [if_pos h1, if_neg (not_le.mpr h2)]
  constructor
  · split_ifs <;> rfl
  · split_ifs with h3 h4 <;>
      first
        | exact (bits_flip_up _ hd).2.1
        | exact (bits_flip_down _ hd).2.1

/-- When the Z offset has overshot its bound, the Z block clamps it to the
signed bound and flips the depth direction. -/
theorem iterateMovementZ_flip (rng : ℕ → ℚ) (s : MovementAction × ℕ)
    (hd : s.1.direction < 256)
    (h1 : s.1.direction &&& MOVEMENT_Z_MASK ≠ 0)
    (h2 : s.1.max_z < fabsf s.1.z) :
    (iterateMovementZ rng s).1.z =
      s.1.max_z * (if 0 < s.1.z then 1 else -1) ∧
    (iterateMovementZ rng s).1.direction &&& 48 =
      (if s.1.direction &&& 16 ≠ 0 then 32 else 16) := by
  obtain ⟨a, k⟩ := s
  simp only [iterateMovementZ, randSpeedMovementAction,
    MOVEMENT_DIRECTION_FORWARD, MOVEMENT_DIRECTION_BACKWARD] at h1 h2 ⊢
  rw [if_pos h1, if_neg (not_le.mpr h2)]
  constructor
  · split_ifs <;> rfl
  · split_ifs with h3 h4 <;>
      first
        | exact (bits_flip_forward _ hd).2.1
        | exact (bits_flip_backward _ hd).2.1

/-- A full frame with an overshot active X axis: clamp, horizontal flip,
fresh step in range. -/
theorem iterateMovementAction_flipX (rng : ℕ → ℚ) (hrng : rngOk rng)
    (a : MovementAction) (k : ℕ) (hInv : MoveInv a)
    (h1 : a.direction &&& MOVEMENT_X_MASK ≠ 0) (h2 : a.max_x < fabsf a.x) :
    (iterateMovementAction rng (a, k)).1.x =
      a.max_x * (if 0 < a.x then 1 else -1) ∧
    (iterateMovementAction rng (a, k)).1.direction &&& MOVEMENT_X_MASK =
      (if a.direction &&& MOVEMENT_DIRECTION_LEFT ≠ 0 then
        MOVEMENT_DIRECTION_RIGHT else MOVEMENT_DIRECTION_LEFT) ∧
    1/100 ≤ (iterateMovementAction rng (a, k)).1.step_x ∧
    (iterateMovementAction rng (a, k)).1.step_x ≤ 1/20 := by
  have hX := iterateMovementX_flip rng (a, k) hInv.1 h1 h2
  have hXinv := iterateMovementX_inv rng hrng (a, k) hInv
  have hYu := iterateMovementY_untouched rng (iterateMovementX rng (a, k))
  have hYp := iterateMovementY_preserve rng (iterateMovementX rng (a, k))
    hXinv.1
  have hYinv := iterateMovementY_inv rng hrng (iterateMovementX rng (a, k))
    hXinv
  have hZu := iterateMovementZ_untouched rng
    (iterateMovementY rng (iterateMovementX rng (a, k)))
  have hZp := iterateMovementZ_preserve rng
    (iterateMovementY rng (iterateMovementX rng (a, k))) hYinv.1
  have hZinv := iterateMovementZ_inv rng hrng
    (iterateMovementY rng (iterateMovementX rng (a, k))) hYinv
  simp only [iterateMovementAction]
  refine ⟨?_, ?_, hZinv.2.2.2.2.1, hZinv.2.2.2.2.2.1⟩
  · rw [hZu.1, hYu.1, hX.1]
  · rw [MOVEMENT_X_MASK_eq, hZp.1, hYp.1, hX.2]
    simp [MOVEMENT_DIRECTION_LEFT, MOVEMENT_DIRECTION_RIGHT]

/-- A full frame with an overshot active Y axis: clamp, vertical flip, fresh
step in range. -/
theorem iterateMovementAction_flipY (rng : ℕ → ℚ) (hrng : rngOk rng)
    (a : MovementAction) (k : ℕ) (hInv : MoveInv a)
    (h1 : a.direction &&& MOVEMENT_Y_MASK ≠ 0) (h2 : a.max_y < fabsf a.y) :
    (iterateMovementAction rng (a, k)).1.y =
      a.max_y * (if 0 < a.y then 1 else -1) ∧
    (iterateMovementAction rng (a, k)).1.direction &&& MOVEMENT_Y_MASK =
      (if a.direction &&& MOVEMENT_DIRECTION_UP ≠ 0 then
        MOVEMENT_DIRECTION_DOWN else MOVEMENT_DIRECTION_UP) ∧
    1/100 ≤ (iterateMovementAction rng (a, k)).1.step_y ∧
    (iterateMovementAction rng (a, k)).1.step_y ≤ 1/20 := by
  have hXu := iterateMovementX_untouched rng (a, k)
  have hXp := iterateMovementX_preserve rng (a, k) hInv.1
  have hXinv := iterateMovementX_inv rng hrng (a, k) hInv
  have hY1 : (iterateMovementX rng (a, k)).1.direction &&&
      MOVEMENT_Y_MASK ≠ 0 := by
    rw [MOVEMENT_Y_MASK_eq] at h1 ⊢
    rw [hXp.1]
    exact h1
  have hY2 : (iterateMovementX rng (a, k)).1.max_y <
      fabsf (iterateMovementX rng (a, k)).1.y := by
    rw [hXu.1, hXu.2.2.2.1]
    exact h2
  have hY := iterateMovementY_flip rng (iterateMovementX rng (a, k)) hXinv.1
    hY1 hY2
  have hYinv := iterateMovementY_inv rng hrng (iterateMovementX rng (a, k))
    hXinv
  have hZu := iterateMovementZ_untouched rng
    (iterateMovementY rng (iterateMovementX rng (a, k)))
  have hZp := iterateMovementZ_preserve rng
    (iterateMovementY rng (iterateMovementX rng (a, k))) hYinv.1
  have hZinv := iterateMovementZ_inv rng hrng
    (iterateMovementY rng (iterateMovementX rng (a, k))) hYinv
  simp only [iterateMovementAction]
  refine ⟨?_, ?_, hZinv.2.2.2.2.2.2.1, hZinv.2.2.2.2.2.2.2.1⟩
  · rw [hZu.2.1, hY.1, hXu.1, hXu.2.2.2.1]
  · rw [MOVEMENT_Y_MASK_eq, hZp.2.2.1, hY.2, hXp.2.1]
    simp [MOVEMENT_DIRECTION_UP, MOVEMENT_DIRECTION_DOWN]

/-- A full frame with an overshot active Z axis: clamp, depth flip, fresh
step in range. -/
theorem iterateMovementAction_flipZ (rng : ℕ → ℚ) (hrng : rngOk rng)
    (a : MovementAction) (k : ℕ) (hInv : MoveInv a)
    (h1 : a.direction &&& MOVEMENT_Z_MASK ≠ 0) (h2 : a.max_z < fabsf a.z) :
    (iterateMovementAction rng (a, k)).1.z =
      a.max_z * (if 0 < a.z then 1 else -1) ∧
    (iterateMovementAction rng (a, k)).1.direction &&& MOVEMENT_Z_MASK =
      (if a.direction &&& MOVEMENT_DIRECTION_FORWARD ≠ 0 then
        MOVEMENT_DIRECTION_BACKWARD else MOVEMENT_DIRECTION_FORWARD) ∧
    1/100 ≤ (iterateMovementAction rng (a, k)).1.step_z ∧
    (iterateMovementAction rng (a, k)).1.step_z ≤ 1/20 := by
  have hXu := iterateMovementX_untouched rng (a, k)
  have hXp := iterateMovementX_preserve rng (a, k) hInv.1
  have hXinv := iterateMovementX_inv rng hrng (a, k) hInv
  have hYu := iterateMovementY_untouched rng (iterateMovementX rng (a, k))
  have hYp := iterateMovementY_preserve rng (iterateMovementX rng (a, k))
    hXinv.1
  have hYinv := iterateMovementY_inv rng hrng (iterateMovementX rng (a, k))
    hXinv
  have hZ1 : (iterateMovementY rng (iterateMovementX rng (a, k))).1.direction
      &&& MOVEMENT_Z_MASK ≠ 0 := by
    rw [MOVEMENT_Z_MASK_eq] at h1 ⊢
    rw [show (iterateMovementY rng (iterateMovementX rng (a, k))).1.direction
        &&& 48 = a.direction &&& 48 from by rw [hYp.2.2.1, hXp.2.2.1]]
    exact h1
  have hZ2 : (iterateMovementY rng (iterateMovementX rng (a, k))).1.max_z <
      fabsf (iterateMovementY rng (iterateMovementX rng (a, k))).1.z := by
    rw [hYu.2.1, hYu.2.2.2.2, hXu.2.1, hXu.2.2.2.2]
    exact h2
  have hZ := iterateMovementZ_flip rng
    (iterateMovementY rng (iterateMovementX rng (a, k))) hYinv.1 hZ1 hZ2
  have hZinv := iterateMovementZ_inv rng hrng
    (iterateMovementY rng (iterateMovementX rng (a, k))) hYinv
  simp only [iterateMovementAction]
  refine ⟨?_, ?_, hZinv.2.2.2.2.2.2.2.2.1, hZinv.2.2.2.2.2.2.2.2.2.1⟩
  · rw [hZ.1, hYu.2.1, hXu.2.1, hYu.2.2.2.2, hXu.2.2.2.2]
  · rw [MOVEMENT_Z_MASK_eq, hZ.2]
    rw [show (iterateMovementY rng (iterateMovementX rng (a, k))).1.direction
        &&& 16 = a.direction &&& 16 from by rw [hYp.2.2.2, hXp.2.2.2]]
    simp [MOVEMENT_DIRECTION_FORWARD, MOVEMENT_DIRECTION_BACKWARD]

/-- C5 (amended): across any number of frames from an invariant-satisfying
movement action (steps drawn from [0.01, 0.05], direction a byte mask,
nonnegative bounds), each accumulated offset never exceeds its bound plus
one maximal step (0.05) in absolute value; and on the frame that starts with
an overshot offset on an active axis, the offset is clamped to the signed
bound, the active direction flips to its opposite, and the axis step is a
value in [0.01, 0.05] (freshly drawn by `randSpeedMovementAction`). -/
theorem iterateMovementAction_oscillation (rng : ℕ → ℚ) (hrng : rngOk rng) :
    (∀ (a : MovementAction) (k n : ℕ), MoveInv a →
        |(iterateMovementActionN rng n (a, k)).1.x| ≤ a.max_x + 1/20 ∧
        |(iterateMovementActionN rng n (a, k)).1.y| ≤ a.max_y + 1/20 ∧
        |(iterateMovementActionN rng n (a, k)).1.z| ≤ a.max_z + 1/20) ∧
    (∀ (a : MovementAction) (k : ℕ), MoveInv a →
        a.direction &&& MOVEMENT_X_MASK ≠ 0 → a.max_x < fabsf a.x →
        (iterateMovementAction rng (a, k)).1.x =
          a.max_x * (if 0 < a.x then 1 else -1) ∧
        (iterateMovementAction rng (a, k)).1.direction &&& MOVEMENT_X_MASK =
          (if a.direction &&& MOVEMENT_DIRECTION_LEFT ≠ 0 then
            MOVEMENT_DIRECTION_RIGHT else MOVEMENT_DIRECTION_LEFT) ∧
        1/100 ≤ (iterateMovementAction rng (a, k)).1.step_x ∧
        (iterateMovementAction rng (a, k)).1.step_x ≤ 1/20) ∧
    (∀ (a : MovementAction) (k : ℕ), MoveInv a →
        a.direction &&& MOVEMENT_Y_MASK ≠ 0 → a.max_y < fabsf a.y →
        (iterateMovementAction rng (a, k)).1.y =
          a.max_y * (if 0 < a.y then 1 else -1) ∧
        (iterateMovementAction rng (a, k)).1.direction &&& MOVEMENT_Y_MASK =
          (if a.direction &&& MOVEMENT_DIRECTION_UP ≠ 0 then
            MOVEMENT_DIRECTION_DOWN else MOVEMENT_DIRECTION_UP) ∧
        1/100 ≤ (iterateMovementAction rng (a, k)).1.step_y ∧
        (iterateMovementAction rng (a, k)).1.step_y ≤ 1/20) ∧
    (∀ (a : MovementAction) (k : ℕ), MoveInv a →
        a.direction &&& MOVEMENT_Z_MASK ≠ 0 → a.max_z < fabsf a.z →
        (iterateMovementAction rng (a, k)).1.z =
          a.max_z * (if 0 < a.z then 1 else -1) ∧
        (iterateMovementAction rng (a, k)).1.direction &&& MOVEMENT_Z_MASK =
          (if a.direction &&& MOVEMENT_DIRECTION_FORWARD ≠ 0 then
            MOVEMENT_DIRECTION_BACKWARD else MOVEMENT_DIRECTION_FORWARD) ∧
        1/100 ≤ (iterateMovementAction rng (a, k)).1.step_z ∧
        (iterateMovementAction rng (a, k)).1.step_z ≤ 1/20) := by
  refine ⟨?_, ?_, ?_, ?_⟩
  · intro a k n h
    have hN := iterateMovementActionN_inv rng hrng n (a, k) h
    refine ⟨?_, ?_, ?_⟩
    · have := hN.1.2.2.2.2.2.2.2.2.2.2.1
      rwa [hN.2.1] at this
    · have := hN.1.2.2.2.2.2.2.2.2.2.2.2.1
      rwa [hN.2.2.1] at this
    · have := hN.1.2.2.2.2.2.2.2.2.2.2.2.2
      rwa [hN.2.2.2] at this
  · exact fun a k h h1 h2 => iterateMovementAction_flipX rng hrng a k h h1 h2
  · exact fun a k h h1 h2 => iterateMovementAction_flipY rng hrng a k h h1 h2
  · exact fun a k h h1 h2 => iterateMovementAction_flipZ rng hrng a k h h1 h2

/-- Witness for the amended C5 at concrete movement actions with overshot
offsets on each axis. -/
theorem iterateMovementAction_oscillation_witness :
    (|(iterateMovementActionN rngOne 2 (cexActionX, 0)).1.x| ≤
        cexActionX.max_x + 1/20 ∧
     |(iterateMovementActionN rngOne 2 (cexActionX, 0)).1.y| ≤
        cexActionX.max_y + 1/20 ∧
     |(iterateMovementActionN rngOne 2 (cexActionX, 0)).1.z| ≤
        cexActionX.max_z + 1/20) ∧
    ((iterateMovementAction rngOne (cexActionX, 0)).1.x =
        cexActionX.max_x * (if 0 < cexActionX.x then 1 else -1) ∧
     (iterateMovementAction rngOne (cexActionX, 0)).1.direction &&&
        MOVEMENT_X_MASK =
        (if cexActionX.direction &&& MOVEMENT_DIRECTION_LEFT ≠ 0 then
          MOVEMENT_DIRECTION_RIGHT else MOVEMENT_DIRECTION_LEFT) ∧
     1/100 ≤ (iterateMovementAction rngOne (cexActionX, 0)).1.step_x ∧
     (iterateMovementAction rngOne (cexActionX, 0)).1.step_x ≤ 1/20) ∧
    ((iterateMovementAction rngOne (cexActionY, 0)).1.y =
        cexActionY.max_y * (if 0 < cexActionY.y then 1 else -1) ∧
     (iterateMovementAction rngOne (cexActionY, 0)).1.direction &&&
        MOVEMENT_Y_MASK =
        (if cexActionY.direction &&& MOVEMENT_DIRECTION_UP ≠ 0 then
          MOVEMENT_DIRECTION_DOWN else MOVEMENT_DIRECTION_UP) ∧
     1/100 ≤ (iterateMovementAction rngOne (cexActionY, 0)).1.step_y ∧
     (iterateMovementAction rngOne (cexActionY, 0)).1.step_y ≤ 1/20) ∧
    ((iterateMovementAction rngOne (cexActionZ, 0)).1.z =
        cexActionZ.max_z * (if 0 < cexActionZ.z then 1 else -1) ∧
     (iterateMovementAction rngOne (cexActionZ, 0)).1.direction &&&
        MOVEMENT_Z_MASK =
        (if cexActionZ.direction &&& MOVEMENT_DIRECTION_FORWARD ≠ 0 then
          MOVEMENT_DIRECTION_BACKWARD else MOVEMENT_DIRECTION_FORWARD) ∧
     1/100 ≤ (iterateMovementAction rngOne (cexActionZ, 0)).1.step_z ∧
     (iterateMovementAction rngOne (cexActionZ, 0)).1.step_z ≤ 1/20) := by
  have hr : rngOk rngOne :=
    fun n => ⟨by norm_num [rngOne], by norm_num [rngOne]⟩
  have hx : MoveInv cexActionX := by
    simp only [MoveInv, cexActionX]
    norm_num [abs_le]
  have hy : MoveInv cexActionY := by
    simp only [MoveInv, cexActionY]
    norm_num [abs_le]
  have hz : MoveInv cexActionZ := by
    simp only [MoveInv, cexActionZ]
    norm_num [abs_le]
  exact ⟨(iterateMovementAction_oscillation rngOne hr).1 cexActionX 0 2 hx,
    (iterateMovementAction_oscillation rngOne hr).2.1 cexActionX 0 hx
      (by decide) (by norm_num [cexActionX, fabsf]),
    (iterateMovementAction_oscillation rngOne hr).2.2.1 cexActionY 0 hy
      (by decide) (by norm_num [cexActionY, fabsf]),
    (iterateMovementAction_oscillation rngOne hr).2.2.2 cexActionZ 0 hz
      (by decide) (by norm_num [cexActionZ, fabsf])⟩

/-- The inner collision scan preserves the length of the remaining nodes. -/
theorem mutualInner_len (f : Bool) (a : Bullet) :
    ∀ (l : List BulletNode) (base : ℕ),
    (mutualInner f a base l).2.1.length = l.length := by
  intro l
  induction l with
  | nil => intro base; simp [mutualInner]
  | cons n rest ih =>
    intro base
    simp only [mutualInner]
    split
    · simpa using ih (base + 1)
    · split
      · simpa using ih (base + 1)
      · split
        · simp
        · simpa using ih (base + 1)

/-- Helper: lifting the inner-scan characterization over a skipped node. -/
theorem mutualInner_cons_step (f : Bool) (a : Bullet) (n : BulletNode)
    (rest : List BulletNode) (base j : ℕ)
    (hle : base + 1 ≤ j) (hlt : j < base + 1 + rest.length)
    (halive : (rest.getD (j - (base + 1)) arbBulletNode).self.alive = true)
    (howner : f = false →
      a.owner ≠ (rest.getD (j - (base + 1)) arbBulletNode).self.owner)
    (hov : bulletsOverlapXZ a
      (rest.getD (j - (base + 1)) arbBulletNode).self = true)
    (hupd : ∀ i, (mutualInner f a (base + 1) rest).2.1.getD i arbBulletNode =
      (if base + 1 + i = j then killBulletNode (rest.getD i arbBulletNode)
       else rest.getD i arbBulletNode)) :
    base ≤ j ∧ j < base + (n :: rest).length ∧
    ((n :: rest).getD (j - base) arbBulletNode).self.alive = true ∧
    (f = false →
      a.owner ≠ ((n :: rest).getD (j - base) arbBulletNode).self.owner) ∧
    bulletsOverlapXZ a ((n :: rest).getD (j - base) arbBulletNode).self =
      true ∧
    (∀ i, ((n :: (mutualInner f a (base + 1) rest).2.1).getD i
        arbBulletNode) =
      (if base + i = j then killBulletNode ((n :: rest).getD i arbBulletNode)
       else (n :: rest).getD i arbBulletNode)) := by
  have hsub : j - base = (j - (base + 1)) + 1 := by omega
  refine ⟨by omega, by simp only [List.length_cons]; omega, ?_, ?_, ?_, ?_⟩
  · rw [hsub, List.getD_cons_succ]
    exact halive
  · rw [hsub, List.getD_cons_succ]
    exact howner
  · rw [hsub, List.getD_cons_succ]
    exact hov
  · intro i
    cases i with
    | zero =>
      simp only [List.getD_cons_zero]
      rw [if_neg (by omega)]
    | succ i =>
      simp only [List.getD_cons_succ]
      rw [hupd i, show base + 1 + i = base + (i + 1) from by omega]

/-- When the inner scan finds no partner, it changes nothing. -/
theorem mutualInner_none (f : Bool) (a : Bullet) :
    ∀ (l : List BulletNode) (base : ℕ),
    (mutualInner f a base l).2.2 = none →
    (mutualInner f a base l).1 = a ∧ (mutualInner f a base l).2.1 = l := by
  intro l
  induction l with
  | nil => intro base _; exact ⟨rfl, rfl⟩
  | cons n rest ih =>
    intro base h
    by_cases hdead : n.self.alive = false
    · simp only [mutualInner] at h ⊢
      rw [if_pos hdead] at h ⊢
      obtain ⟨ha, hl⟩ := ih (base + 1) h
      simp [ha, hl]
    · by_cases hsame : f = false ∧ a.owner = n.self.owner
      · simp only [mutualInner] at h ⊢
        rw [if_neg hdead, if_pos hsame] at h ⊢
        obtain ⟨ha, hl⟩ := ih (base + 1) h
        simp [ha, hl]
      · by_cases hov : bulletsOverlapXZ a n.self = true
        · simp only [mutualInner] at h
          rw [if_neg hdead, if_neg hsame, if_pos hov] at h
          simp at h
        · simp only [mutualInner] at h ⊢
          rw [if_neg hdead, if_neg hsame, if_neg hov] at h ⊢
          obtain ⟨ha, hl⟩ := ih (base + 1) h
          simp [ha, hl]

/-- When the inner scan for bullet `a` (absolute indices of the scanned
suffix starting at `base`) kills a partner at absolute index `j`: the
partner was alive, eligible under the owner policy, overlapping `a` in the
XZ plane; `a` comes back dead, and the suffix is updated exactly at `j`. -/
theorem mutualInner_some (f : Bool) (a : Bullet) :
    ∀ (l : List BulletNode) (base j : ℕ),
    (mutualInner f a base l).2.2 = some j →
    base ≤ j ∧ j < base + l.length ∧
    (mutualInner f a base l).1 = { a with alive := false } ∧
    (l.getD (j - base) arbBulletNode).self.alive = true ∧
    (f = false → a.owner ≠ (l.getD (j - base) arbBulletNode).self.owner) ∧
    bulletsOverlapXZ a (l.getD (j - base) arbBulletNode).self = true ∧
    (∀ i, (mutualInner f a base l).2.1.getD i arbBulletNode =
      (if base + i = j then killBulletNode (l.getD i arbBulletNode)
       else l.getD i arbBulletNode)) := by
  intro l
  induction l with
  | nil => intro base j h; simp [mutualInner] at h
  | cons n rest ih =>
    intro base j h
    by_cases hdead : n.self.alive = false
    · simp only [mutualInner] at h ⊢
      rw [if_pos hdead] at h ⊢
      obtain ⟨hle, hlt, ha, halive, howner, hov, hupd⟩ := ih (base + 1) j h
      have hstep := mutualInner_cons_step f a n rest base j hle
        (by omega) halive howner hov hupd
      exact ⟨hstep.1, hstep.2.1, ha, hstep.2.2.1, hstep.2.2.2.1,
        hstep.2.2.2.2.1, hstep.2.2.2.2.2⟩
    · by_cases hsame : f = false ∧ a.owner = n.self.owner
      · simp only [mutualInner] at h ⊢
        rw [if_neg hdead, if_pos hsame] at h ⊢
        obtain ⟨hle, hlt, ha, halive, howner, hov, hupd⟩ := ih (base + 1) j h
        have hstep := mutualInner_cons_step f a n rest base j hle
          (by omega) halive howner hov hupd
        exact ⟨hstep.1, hstep.2.1, ha, hstep.2.2.1, hstep.2.2.2.1,
          hstep.2.2.2.2.1, hstep.2.2.2.2.2⟩
      · by_cases hov : bulletsOverlapXZ a n.self = true
        · simp only [mutualInner] at h ⊢
          rw [if_neg hdead, if_neg hsame, if_pos hov] at h ⊢
          simp only [Option.some.injEq] at h
          subst h
          refine ⟨le_refl _, by simp, rfl, ?_, ?_, ?_, ?_⟩
          · simp only [Nat.sub_self, List.getD_cons_zero]
            simpa using hdead
          · intro hf
            simp only [Nat.sub_self, List.getD_cons_zero]
            intro heq
            exact hsame ⟨hf, heq⟩
          · simpa [Nat.sub_self, List.getD_cons_zero] using hov
          · intro i
            cases i with
            | zero => simp [killBulletNode]
            | succ i =>
              simp only [List.getD_cons_succ]
              rw [if_neg (by omega)]
        · simp only [mutualInner] at h ⊢
          rw [if_neg hdead, if_neg hsame, if_neg hov] at h ⊢
          obtain ⟨hle, hlt, ha, halive, howner, hov2, hupd⟩ :=
            ih (base + 1) j h
          have hstep := mutualInner_cons_step f a n rest base j hle
            (by omega) halive howner hov2 hupd
          exact ⟨hstep.1, hstep.2.1, ha, hstep.2.2.1, hstep.2.2.2.1,
            hstep.2.2.2.2.1, hstep.2.2.2.2.2⟩

/-- Membership of a kill-pair log's index list. -/
theorem mem_pairIndices {m : ℕ} {log : List (ℕ × ℕ)} :
    m ∈ pairIndices log ↔ ∃ p ∈ log, m = p.1 ∨ m = p.2 := by
  simp [pairIndices]

/-- An index referencing an alive node of the once-updated suffix is not the
killed index, and reads the original node. -/
theorem getD_update_ne (rest l' : List BulletNode) (base j m : ℕ)
    (hupd : ∀ i, l'.getD i arbBulletNode =
      (if base + 1 + i = j then killBulletNode (rest.getD i arbBulletNode)
       else rest.getD i arbBulletNode))
    (hm : base + 1 ≤ m)
    (halive : (l'.getD (m - (base + 1)) arbBulletNode).self.alive = true) :
    m ≠ j ∧ l'.getD (m - (base + 1)) arbBulletNode =
      rest.getD (m - (base + 1)) arbBulletNode := by
  have e : base + 1 + (m - (base + 1)) = m := by omega
  have h := hupd (m - (base + 1))
  rw [e] at h
  by_cases hmj : m = j
  · rw [if_pos hmj] at h
    rw [h] at halive
    simp [killBulletNode] at halive
  · rw [if_neg hmj] at h
    exact ⟨hmj, h⟩

/-- Full characterization of the marking phase of
`bulletsResolveMutualCollisions`: the node count is preserved; every logged
pair (i, j) has i < j, both nodes alive in the input, overlapping in the XZ
plane, and of different owners when same-owner collisions are disabled; no
node belongs to two pairs; and the output equals the input with exactly the
paired nodes marked dead. -/
theorem mutualOuter_specAux (f : Bool) :
    ∀ (N : ℕ) (l : List BulletNode) (base : ℕ), l.length ≤ N →
    (mutualOuter f base l).1.length = l.length ∧
    (∀ p ∈ (mutualOuter f base l).2,
        base ≤ p.1 ∧ p.1 < p.2 ∧ p.2 < base + l.length ∧
        (l.getD (p.1 - base) arbBulletNode).self.alive = true ∧
        (l.getD (p.2 - base) arbBulletNode).self.alive = true ∧
        bulletsOverlapXZ (l.getD (p.1 - base) arbBulletNode).self
          (l.getD (p.2 - base) arbBulletNode).self = true ∧
        (f = false → (l.getD (p.1 - base) arbBulletNode).self.owner ≠
          (l.getD (p.2 - base) arbBulletNode).self.owner)) ∧
    (pairIndices (mutualOuter f base l).2).Nodup ∧
    (∀ i, (mutualOuter f base l).1.getD i arbBulletNode =
        (if (base + i) ∈ pairIndices (mutualOuter f base l).2 then
          killBulletNode (l.getD i arbBulletNode)
         else l.getD i arbBulletNode)) := by
  intro N
  induction N with
  | zero =>
    intro l base hlen
    have hnil : l = [] := List.length_eq_zero.mp (by omega)
    subst hnil
    rw [mutualOuter]
    exact ⟨rfl, by simp, by simp [pairIndices],
      fun i => by simp [pairIndices]⟩
  | succ N ihN =>
    intro l base hlen
    match l with
    | [] =>
      rw [mutualOuter]
      exact ⟨rfl, by simp, by simp [pairIndices],
        fun i => by simp [pairIndices]⟩
    | n :: rest =>
      have hrlen : rest.length ≤ N := by
        simp only [List.length_cons] at hlen
        omega
      by_cases hdead : n.self.alive = false
      · obtain ⟨ihlen, ihpairs, ihnodup, ihupd⟩ := ihN rest (base + 1) hrlen
        rw [mutualOuter, if_pos hdead]
        dsimp only
        refine ⟨by simp [ihlen], ?_, ihnodup, ?_⟩
        · intro p hp
          obtain ⟨h1, h2, h3, h4, h5, h6, h7⟩ := ihpairs p hp
          have e1 : p.1 - base = (p.1 - (base + 1)) + 1 := by omega
          have e2 : p.2 - base = (p.2 - (base + 1)) + 1 := by omega
          rw [e1, e2, List.getD_cons_succ, List.getD_cons_succ]
          exact ⟨by omega, h2, by simp only [List.length_cons]; omega, h4,
            h5, h6, h7⟩
        · intro i
          cases i with
          | zero =>
            simp only [List.getD_cons_zero, Nat.add_zero]
            rw [if_neg]
            intro hmem
            obtain ⟨p, hp, hcase⟩ := mem_pairIndices.mp hmem
            have := ihpairs p hp
            omega
          | succ i =>
            simp only [List.getD_cons_succ]
            rw [ihupd i, show base + 1 + i = base + (i + 1) from by omega]
      · have hlen' := mutualInner_len f n.self rest (base + 1)
        obtain ⟨ihlen, ihpairs, ihnodup, ihupd⟩ :=
          ihN (mutualInner f n.self (base + 1) rest).2.1 (base + 1)
            (by rw [hlen']; exact hrlen)
        rcases hj : (mutualInner f n.self (base + 1) rest).2.2 with _ | j
        · obtain ⟨ha, hl⟩ := mutualInner_none f n.self rest (base + 1) hj
          rw [mutualOuter, if_neg hdead]
          dsimp only
          rw [hj]
          dsimp only
          rw [ha]
          have hn : ({ n with self := n.self } : BulletNode) = n := rfl
          rw [hn, hl]
          rw [hl] at ihlen ihpairs ihnodup ihupd
          refine ⟨by simp [ihlen], ?_, ihnodup, ?_⟩
          · intro p hp
            obtain ⟨h1, h2, h3, h4, h5, h6, h7⟩ := ihpairs p hp
            have e1 : p.1 - base = (p.1 - (base + 1)) + 1 := by omega
            have e2 : p.2 - base = (p.2 - (base + 1)) + 1 := by omega
            rw [e1, e2, List.getD_cons_succ, List.getD_cons_succ]
            exact ⟨by omega, h2, by simp only [List.length_cons]; omega, h4,
              h5, h6, h7⟩
          · intro i
            cases i with
            | zero =>
              simp only [List.getD_cons_zero, Nat.add_zero]
              rw [if_neg]
              intro hmem
              obtain ⟨p, hp, hcase⟩ := mem_pairIndices.mp hmem
              have := ihpairs p hp
              omega
            | succ i =>
              simp only [List.getD_cons_succ]
              rw [ihupd i, show base + 1 + i = base + (i + 1) from by omega]
        · have halive' : n.self.alive = true := by simpa using hdead
          obtain ⟨hle, hlt, ha, hjal, hjow, hjov, hupd⟩ :=
            mutualInner_some f n.self rest (base + 1) j hj
          rw [mutualOuter, if_neg hdead]
          dsimp only
          rw [hj]
          dsimp only
          have hnotinw : j ∉ pairIndices
              (mutualOuter f (base + 1)
                (mutualInner f n.self (base + 1) rest).2.1).2 := by
            intro hmem
            obtain ⟨p, hp, hcase⟩ := mem_pairIndices.mp hmem
            obtain ⟨h1, h2, h3, h4, h5, h6, h7⟩ := ihpairs p hp
            rcases hcase with hc | hc
            · exact ((getD_update_ne rest _ base j p.1 hupd h1 h4).1
                hc.symm).elim
            · exact ((getD_update_ne rest _ base j p.2 hupd (by omega)
                h5).1 hc.symm).elim
          refine ⟨?_, ?_, ?_, ?_⟩
          · simp only [List.length_cons, ihlen, hlen']
          · intro p hp
            simp only [List.mem_cons] at hp
            rcases hp with hp | hp
            · subst hp
              refine ⟨le_refl _, by omega,
                by simp only [List.length_cons]; omega,
                ?_, ?_, ?_, ?_⟩
              · simpa [Nat.sub_self] using halive'
              · rw [show j - base = (j - (base + 1)) + 1 from by omega,
                  List.getD_cons_succ]
                exact hjal
              · rw [Nat.sub_self, List.getD_cons_zero,
                  show j - base = (j - (base + 1)) + 1 from by omega,
                  List.getD_cons_succ]
                exact hjov
              · intro hf
                rw [Nat.sub_self, List.getD_cons_zero,
                  show j - base = (j - (base + 1)) + 1 from by omega,
                  List.getD_cons_succ]
                exact hjow hf
            · obtain ⟨h1, h2, h3, h4, h5, h6, h7⟩ := ihpairs p hp
              obtain ⟨hne1, he1⟩ := getD_update_ne rest _ base j p.1 hupd
                h1 h4
              obtain ⟨hne2, he2⟩ := getD_update_ne rest _ base j p.2 hupd
                (by omega) h5
              rw [he1] at h4 h6 h7
              rw [he2] at h5 h6 h7
              have e1 : p.1 - base = (p.1 - (base + 1)) + 1 := by omega
              have e2 : p.2 - base = (p.2 - (base + 1)) + 1 := by omega
              rw [e1, e2, List.getD_cons_succ, List.getD_cons_succ]
              refine ⟨by omega, h2, ?_, h4, h5, h6, h7⟩
              rw [hlen'] at h3
              simp only [List.length_cons]
              omega
          · simp only [pairIndices, List.flatMap_cons, List.nodup_cons,
              List.cons_append, List.nil_append]
            refine ⟨?_, ?_, ?_⟩
            · simp only [List.mem_cons]
              rintro (h | h)
              · omega
              · obtain ⟨p, hp, hcase⟩ :=
                  mem_pairIndices.mp (by simpa [pairIndices] using h)
                have := ihpairs p hp
                omega
            · intro hmem
              exact hnotinw (by simpa [pairIndices] using hmem)
            · simpa [pairIndices] using ihnodup
          · intro i
            cases i with
            | zero =>
              simp only [List.getD_cons_zero, Nat.add_zero]
              rw [if_pos (by simp [pairIndices])]
              rw [ha]
              rfl
            | succ i =>
              simp only [List.getD_cons_succ]
              rw [ihupd i]
              have hiff : (base + 1 + i ∈ pairIndices
                  (mutualOuter f (base + 1)
                    (mutualInner f n.self (base + 1) rest).2.1).2) ∨
                  base + 1 + i = j ↔
                  base + (i + 1) ∈ pairIndices ((base, j) ::
                    (mutualOuter f (base + 1)
                      (mutualInner f n.self (base + 1) rest).2.1).2) := by
                simp only [pairIndices, List.flatMap_cons, List.cons_append,
                  List.nil_append, List.mem_cons]
                constructor
                · rintro (h | h)
                  · right; right
                    simpa [pairIndices, show base + (i+1) = base + 1 + i
                      from by omega] using h
                  · right; left; omega
                · rintro (h | h | h)
                  · omega
                  · right; omega
                  · left
                    simpa [pairIndices, show base + 1 + i = base + (i+1)
                      from by omega] using h
              by_cases hcj : base + 1 + i = j
              · have hv : (mutualInner f n.self (base + 1) rest).2.1.getD i
                    arbBulletNode =
                    killBulletNode (rest.getD i arbBulletNode) := by
                  rw [hupd i, if_pos hcj]
                have hmemF : base + 1 + i ∉ pairIndices
                    (mutualOuter f (base + 1)
                      (mutualInner f n.self (base + 1) rest).2.1).2 := by
                  rw [hcj]
                  exact hnotinw
                rw [if_neg hmemF, hv, if_pos (hiff.mp (Or.inr hcj))]
              · have hv : (mutualInner f n.self (base + 1) rest).2.1.getD i
                    arbBulletNode = rest.getD i arbBulletNode := by
                  rw [hupd i, if_neg hcj]
                by_cases hPmem : base + 1 + i ∈ pairIndices
                    (mutualOuter f (base + 1)
                      (mutualInner f n.self (base + 1) rest).2.1).2
                · rw [if_pos hPmem, hv, if_pos (hiff.mp (Or.inl hPmem))]
                · rw [if_neg hPmem, hv, if_neg]
                  intro hmem
                  rcases (hiff.mpr hmem) with h | h
                  · exact hPmem h
                  · exact hcj h

/-- Full characterization of the marking phase of
`bulletsResolveMutualCollisions` (started at base 0 on the whole node list):
the node count is preserved; every logged pair (i, j) has i < j, both nodes
alive in the input, overlapping in the XZ plane, and of different owners
when same-owner collisions are disabled; no node belongs to two pairs; and
the output equals the input with exactly the paired nodes marked dead. -/
theorem mutualOuter_spec (f : Bool) (base : ℕ) (l : List BulletNode) :
    (mutualOuter f base l).1.length = l.length ∧
    (∀ p ∈ (mutualOuter f base l).2,
        base ≤ p.1 ∧ p.1 < p.2 ∧ p.2 < base + l.length ∧
        (l.getD (p.1 - base) arbBulletNode).self.alive = true ∧
        (l.getD (p.2 - base) arbBulletNode).self.alive = true ∧
        bulletsOverlapXZ (l.getD (p.1 - base) arbBulletNode).self
          (l.getD (p.2 - base) arbBulletNode).self = true ∧
        (f = false → (l.getD (p.1 - base) arbBulletNode).self.owner ≠
          (l.getD (p.2 - base) arbBulletNode).self.owner)) ∧
    (pairIndices (mutualOuter f base l).2).Nodup ∧
    (∀ i, (mutualOuter f base l).1.getD i arbBulletNode =
        (if (base + i) ∈ pairIndices (mutualOuter f base l).2 then
          killBulletNode (l.getD i arbBulletNode)
         else l.getD i arbBulletNode)) :=
  mutualOuter_specAux f l.length l base (le_refl _)

/-- With nonnegative shape radii (the only values the constructors produce),
the code's effective collision radius agrees with the spec's wording. -/
theorem bulletCollisionRadius_eq_spec (b : Bullet)
    (ht : 0 ≤ b.size.radius_top) (hb : 0 ≤ b.size.radius_bottom) :
    bulletCollisionRadius b = specEffectiveRadius b := by
  by_cases h : b.size.radius_top = 0 ∧ b.size.radius_bottom = 0
  · rw [specEffectiveRadius, if_pos h, bulletCollisionRadius]
    rw [if_neg]
    rw [h.1, h.2]
    simp
  · rw [specEffectiveRadius, if_neg h, bulletCollisionRadius]
    rw [if_pos]
    rcases (not_and_or.mp h) with h0 | h0
    · exact lt_max_of_lt_left (lt_of_le_of_ne ht (Ne.symm h0))
    · exact lt_max_of_lt_right (lt_of_le_of_ne hb (Ne.symm h0))

set_option maxHeartbeats 1000000 in
/-- C6: the mutual bullet-collision pass tests pairs of alive bullets with
the XZ-plane circle-overlap test (squared distance against the squared sum
of effective radii, each radius the max of the shape radii or half the
largest planar extent when both radii are zero), kills exactly the logged
pairs, never re-pairs a bullet killed earlier in the pass (the pair indices
are nodup), pairs distinct owners only when the same-owner policy is off,
and on the two-bullet same-owner scenario leaves the list unchanged with the
policy off but destroys both bullets with it on. -/
theorem bulletsMutualCollisions_policy (flag : Bool) (nodes : List BulletNode)
    (a b : Bullet)
    (hat : 0 ≤ a.size.radius_top) (hab : 0 ≤ a.size.radius_bottom)
    (hbt : 0 ≤ b.size.radius_top) (hbb : 0 ≤ b.size.radius_bottom) :
    bulletCollisionRadius a = specEffectiveRadius a ∧
    (bulletsOverlapXZ a b = true ↔
      (a.position.x - b.position.x) * (a.position.x - b.position.x) +
        (a.position.z - b.position.z) * (a.position.z - b.position.z) ≤
      (specEffectiveRadius a + specEffectiveRadius b) *
        (specEffectiveRadius a + specEffectiveRadius b)) ∧
    (bulletsMutualMark flag nodes).1.length = nodes.length ∧
    (∀ p ∈ (bulletsMutualMark flag nodes).2,
        p.1 < p.2 ∧ p.2 < nodes.length ∧
        (nodes.getD p.1 arbBulletNode).self.alive = true ∧
        (nodes.getD p.2 arbBulletNode).self.alive = true ∧
        bulletsOverlapXZ (nodes.getD p.1 arbBulletNode).self
          (nodes.getD p.2 arbBulletNode).self = true ∧
        (flag = false → (nodes.getD p.1 arbBulletNode).self.owner ≠
          (nodes.getD p.2 arbBulletNode).self.owner)) ∧
    (pairIndices (bulletsMutualMark flag nodes).2).Nodup ∧
    (∀ i, (bulletsMutualMark flag nodes).1.getD i arbBulletNode =
        (if i ∈ pairIndices (bulletsMutualMark flag nodes).2 then
          killBulletNode (nodes.getD i arbBulletNode)
         else nodes.getD i arbBulletNode)) ∧
    bulletsResolveMutualCollisions sameOwnerPairList false =
      sameOwnerPairList ∧
    (bulletsResolveMutualCollisions sameOwnerPairList true).nodes = [] ∧
    (bulletsResolveMutualCollisions sameOwnerPairList true).length = 0 := by
  obtain ⟨hlen, hpairs, hnodup, hupd⟩ := mutualOuter_spec flag 0 nodes
  refine ⟨bulletCollisionRadius_eq_spec a hat hab, ?_, hlen, ?_, hnodup,
    ?_, ?_, ?_, ?_⟩
  · rw [show bulletsOverlapXZ a b =
        decide ((a.position.x - b.position.x) *
            (a.position.x - b.position.x) +
          (a.position.z - b.position.z) * (a.position.z - b.position.z) ≤
          (bulletCollisionRadius a + bulletCollisionRadius b) *
            (bulletCollisionRadius a + bulletCollisionRadius b)) from rfl,
      bulletCollisionRadius_eq_spec a hat hab,
      bulletCollisionRadius_eq_spec b hbt hbb, decide_eq_true_eq]
  · intro p hp
    obtain ⟨h1, h2, h3, h4, h5, h6, h7⟩ := hpairs p hp
    simp only [Nat.sub_zero] at h4 h5 h6 h7
    exact ⟨h2, by omega, h4, h5, h6, h7⟩
  · intro i
    have h := hupd i
    simp only [Nat.zero_add] at h
    exact h
  · norm_num [sameOwnerPairList, bulletsResolveMutualCollisions,
      bulletsMutualMark, mutualOuter, mutualInner, removeBullets,
      removeBulletsGo, scenarioBulletA, newBullet, newBulletMovement,
      newBulletSize, newBulletPosition, newBulletParameters,
      newTrailEmitter, newBulletAreaFrame, killBulletNode,
      bulletsOverlapXZ, bulletCollisionRadius, List.countP, List.countP.go]
  · norm_num [sameOwnerPairList, bulletsResolveMutualCollisions,
      bulletsMutualMark, mutualOuter, mutualInner, removeBullets,
      removeBulletsGo, scenarioBulletA, newBullet, newBulletMovement,
      newBulletSize, newBulletPosition, newBulletParameters,
      newTrailEmitter, newBulletAreaFrame, killBulletNode,
      bulletsOverlapXZ, bulletCollisionRadius, List.countP, List.countP.go]
  · norm_num [sameOwnerPairList, bulletsResolveMutualCollisions,
      bulletsMutualMark, mutualOuter, mutualInner, removeBullets,
      removeBulletsGo, scenarioBulletA, newBullet, newBulletMovement,
      newBulletSize, newBulletPosition, newBulletParameters,
      newTrailEmitter, newBulletAreaFrame, killBulletNode,
      bulletsOverlapXZ, bulletCollisionRadius, List.countP, List.countP.go]

/-- Witness for C6 at the concrete scenario list and bullets. -/
theorem bulletsMutualCollisions_policy_witness :
    (bulletsMutualMark false sampleBulletList.nodes).1.length =
      sampleBulletList.nodes.length :=
  (bulletsMutualCollisions_policy false sampleBulletList.nodes
    scenarioBulletA scenarioBulletA
    (by norm_num [scenarioBulletA, newBullet, newBulletSize])
    (by norm_num [scenarioBulletA, newBullet, newBulletSize])
    (by norm_num [scenarioBulletA, newBullet, newBulletSize])
    (by norm_num [scenarioBulletA, newBullet, newBulletSize])).2.2.1

/-- C3 (evaluation of the code at the claimed scenario): firing does not
change the statistics at all (`updatePlayer` never receives them), so the
sequence shot–hit–miss ends at score 0, while the claimed value
`hitCost - missCost - shootCost` is −2; the shoot cost is instead subtracted
by `checkBulletHitsPlayer` when an enemy bullet hits the player. -/
theorem shotHitMiss_score_evaluation :
    (addMissIntoGameStat (addHitIntoGameStat
        (updatePlayerFire scenarioPlayer.render.position (newBulletList 0)
          ⟨1/100, 9/10, 3/10, 20, 10⟩ newGameStat 0 true).2)).score = 0 ∧
    GAME_STAT_HIT_COST - GAME_STAT_MISS_COST - GAME_STAT_SHOOT_COST = -2 ∧
    (checkBulletHitsPlayer trigConst scenarioPlayer
        ⟨[⟨scenarioEnemyBullet, 1⟩], 1, 1, 0, newBulletAreaFrame⟩
        newGameStat 5).2.2 = ⟨0, 0, -2⟩ := by
  refine ⟨?_, by norm_num [GAME_STAT_HIT_COST, GAME_STAT_MISS_COST,
    GAME_STAT_SHOOT_COST], ?_⟩
  · norm_num [updatePlayerFire, addHitIntoGameStat, addMissIntoGameStat,
      newGameStat, GAME_STAT_HIT_COST, GAME_STAT_MISS_COST]
  · norm_num [checkBulletHitsPlayer, playerHitGo, getPlayerBoundingBox,
      MatrixRotateXYZ, MatrixIdentity, Vector3Transform, vadd, vmin, vmax,
      scenarioPlayer, scenarioEnemyBullet, newBullet, newBulletMovement,
      newBulletPosition, newBulletSize, newBulletParameters, trigConst,
      CheckCollisionBoxes, getBulletBoundingBox, Bool.and_eq_true,
      decide_eq_true_eq, hitUnitState, newUnitState, DEFAULT_UNIT_HEALTH,
      DEFAULT_UNIT_ENERGY, addShootIntoGameStat, GAME_STAT_SHOOT_COST,
      newGameStat, removeBullets, removeBulletsGo, killBulletNode,
      newBulletAreaFrame, newTrailEmitter]

/-- Per-index characterization of the bullet loop of `checkBulletHitsUnit`:
the output node and flag lists are aligned with the input nodes, each node
is tested exactly when it is alive and player-owned, and it is killed
exactly when the test collides with the unit box. -/
theorem unitHitGo_index (uBox : BoundingBox) (now : ℚ) :
    ∀ (nodes : List BulletNode) (u : Unit) (stat : GameStat),
    (unitHitGo uBox now u stat nodes).2.2.1.length = nodes.length ∧
    (unitHitGo uBox now u stat nodes).2.2.2.length = nodes.length ∧
    (∀ j, j < nodes.length →
      (unitHitGo uBox now u stat nodes).2.2.2.getD j (false, false) =
        (if (nodes.getD j arbBulletNode).self.alive = true ∧
            (nodes.getD j arbBulletNode).self.owner = BulletOwner.player then
          (true, CheckCollisionBoxes uBox
            (getBulletBoundingBox (nodes.getD j arbBulletNode).self))
         else (false, false)) ∧
      (unitHitGo uBox now u stat nodes).2.2.1.getD j arbBulletNode =
        (if (nodes.getD j arbBulletNode).self.alive = true ∧
            (nodes.getD j arbBulletNode).self.owner = BulletOwner.player ∧
            CheckCollisionBoxes uBox
              (getBulletBoundingBox (nodes.getD j arbBulletNode).self) = true
         then killBulletNode (nodes.getD j arbBulletNode)
         else nodes.getD j arbBulletNode)) := by
  intro nodes
  induction nodes with
  | nil =>
    intro u stat
    exact ⟨rfl, rfl, fun j hj => absurd hj (by simp)⟩
  | cons n rest ih =>
    intro u stat
    by_cases helig : n.self.alive = true ∧ n.self.owner = BulletOwner.player
    · by_cases htest :
          CheckCollisionBoxes uBox (getBulletBoundingBox n.self) = true
      · obtain ⟨ih1, ih2, ih3⟩ :=
          ih { u with state := hitUnitState u.state n.self.params now }
            (addHitIntoGameStat stat)
        simp only [unitHitGo, if_pos helig, if_pos htest]
        refine ⟨by simp only [List.length_cons, ih1],
          by simp only [List.length_cons, ih2], ?_⟩
        intro j hj
        cases j with
        | zero =>
          refine ⟨?_, ?_⟩
          · rw [List.getD_cons_zero, List.getD_cons_zero, if_pos helig,
              htest]
          · rw [List.getD_cons_zero, List.getD_cons_zero,
              if_pos ⟨helig.1, helig.2, htest⟩]
        | succ j =>
          simp only [List.getD_cons_succ]
          exact ih3 j (by simp only [List.length_cons] at hj; omega)
      · obtain ⟨ih1, ih2, ih3⟩ := ih u stat
        simp only [unitHitGo, if_pos helig, if_neg htest]
        simp only [Bool.not_eq_true] at htest
        refine ⟨by simp only [List.length_cons, ih1],
          by simp only [List.length_cons, ih2], ?_⟩
        intro j hj
        cases j with
        | zero =>
          refine ⟨?_, ?_⟩
          · rw [List.getD_cons_zero, List.getD_cons_zero, if_pos helig,
              htest]
          · rw [List.getD_cons_zero, List.getD_cons_zero,
              if_neg (fun hc => by rw [htest] at hc; simp at hc)]
        | succ j =>
          simp only [List.getD_cons_succ]
          exact ih3 j (by simp only [List.length_cons] at hj; omega)
    · obtain ⟨ih1, ih2, ih3⟩ := ih u stat
      simp only [unitHitGo, if_neg helig]
      refine ⟨by simp only [List.length_cons, ih1],
        by simp only [List.length_cons, ih2], ?_⟩
      intro j hj
      cases j with
      | zero =>
        refine ⟨?_, ?_⟩
        · rw [List.getD_cons_zero, List.getD_cons_zero, if_neg helig]
        · rw [List.getD_cons_zero, List.getD_cons_zero,
            if_neg (fun hc => helig ⟨hc.1, hc.2.1⟩)]
      | succ j =>
        simp only [List.getD_cons_succ]
        exact ih3 j (by simp only [List.length_cons] at hj; omega)

/-- If no flag of the bullet loop records a hit, the unit comes out of
`checkBulletHitsUnit`'s loop unchanged. -/
theorem unitHitGo_nohit (uBox : BoundingBox) (now : ℚ) :
    ∀ (nodes : List BulletNode) (u : Unit) (stat : GameStat),
    (∀ f ∈ (unitHitGo uBox now u stat nodes).2.2.2, f.2 = false) →
    (unitHitGo uBox now u stat nodes).1 = u := by
  intro nodes
  induction nodes with
  | nil => intro u stat _; rfl
  | cons n rest ih =>
    intro u stat hno
    by_cases helig : n.self.alive = true ∧ n.self.owner = BulletOwner.player
    · by_cases htest :
          CheckCollisionBoxes uBox (getBulletBoundingBox n.self) = true
      · exfalso
        have hmem : ((true, true) : Bool × Bool) ∈
            (unitHitGo uBox now u stat (n :: rest)).2.2.2 := by
          simp only [unitHitGo, if_pos helig, if_pos htest]
          exact List.mem_cons_self _ _
        have := hno _ hmem
        simp at this
      · simp only [unitHitGo, if_pos helig, if_neg htest] at hno ⊢
        exact ih u stat (fun f hf => hno f (List.mem_cons_of_mem _ hf))
    · simp only [unitHitGo, if_neg helig] at hno ⊢
      exact ih u stat (fun f hf => hno f (List.mem_cons_of_mem _ hf))

/-- If some flag of the bullet loop records a hit, the unit's hit timestamp
comes out equal to the current time. -/
theorem unitHitGo_hit_time (uBox : BoundingBox) (now : ℚ) :
    ∀ (nodes : List BulletNode) (u : Unit) (stat : GameStat),
    (∃ f ∈ (unitHitGo uBox now u stat nodes).2.2.2, f.2 = true) →
    (unitHitGo uBox now u stat nodes).1.state.hit_time = now := by
  intro nodes
  induction nodes with
  | nil =>
    intro u stat h
    obtain ⟨f, hf, _⟩ := h
    simp [unitHitGo] at hf
  | cons n rest ih =>
    intro u stat hex
    by_cases helig : n.self.alive = true ∧ n.self.owner = BulletOwner.player
    · by_cases htest :
          CheckCollisionBoxes uBox (getBulletBoundingBox n.self) = true
      · simp only [unitHitGo, if_pos helig, if_pos htest]
        by_cases hrest : ∃ f ∈ (unitHitGo uBox now
            { u with state := hitUnitState u.state n.self.params now }
            (addHitIntoGameStat stat) rest).2.2.2, f.2 = true
        · exact ih _ _ hrest
        · rw [unitHitGo_nohit uBox now rest _ _ (fun f hf => by
            by_contra hcon
            exact hrest ⟨f, hf, by revert hcon; cases f.2 <;> simp⟩)]
          rfl
      · simp only [unitHitGo, if_pos helig, if_neg htest] at hex ⊢
        obtain ⟨f, hf, hf2⟩ := hex
        rcases List.mem_cons.mp hf with he | he
        · rw [he] at hf2; simp at hf2
        · exact ih u stat ⟨f, he, hf2⟩
    · simp only [unitHitGo, if_neg helig] at hex ⊢
      obtain ⟨f, hf, hf2⟩ := hex
      rcases List.mem_cons.mp hf with he | he
      · rw [he] at hf2; simp at hf2
      · exact ih u stat ⟨f, he, hf2⟩

/-- A bullet that is already dead passes through the whole unit loop of
`checkBulletHitsUnits` untouched and untested. -/
theorem unitsHitGo_dead (t : Trig) (now : ℚ) (j : ℕ) :
    ∀ (us : List Unit) (nodes : List BulletNode) (stat : GameStat),
    j < nodes.length →
    (nodes.getD j arbBulletNode).self.alive = false →
    (unitsHitGo t now us stat nodes).nodes.getD j arbBulletNode =
      nodes.getD j arbBulletNode ∧
    (unitsHitGo t now us stat nodes).nodes.length = nodes.length ∧
    (∀ i, ((unitsHitGo t now us stat nodes).rows.getD i []).getD j
      (false, false) = (false, false)) := by
  intro us
  induction us with
  | nil =>
    intro nodes stat hj hdead
    refine ⟨rfl, rfl, fun i => ?_⟩
    simp [unitsHitGo, List.getD]
  | cons u us ih =>
    intro nodes stat hj hdead
    obtain ⟨hlen1, hlen2, hidx⟩ :=
      unitHitGo_index (getUnitBoundingBox t u) now nodes u stat
    have hne : ¬((nodes.getD j arbBulletNode).self.alive = true ∧
        (nodes.getD j arbBulletNode).self.owner = BulletOwner.player) := by
      intro hc
      rw [hdead] at hc
      simp at hc
    obtain ⟨hflag, hnode⟩ := hidx j hj
    rw [if_neg hne] at hflag
    rw [if_neg (fun hc => hne ⟨hc.1, hc.2.1⟩)] at hnode
    have hj' : j < (unitHitGo (getUnitBoundingBox t u) now u stat
        nodes).2.2.1.length := by rw [hlen1]; exact hj
    have hdead' : ((unitHitGo (getUnitBoundingBox t u) now u stat
        nodes).2.2.1.getD j arbBulletNode).self.alive = false := by
      rw [hnode]; exact hdead
    obtain ⟨ihn, ihl, ihr⟩ := ih _ _ hj' hdead'
    refine ⟨?_, ?_, ?_⟩
    · simp only [unitsHitGo, checkBulletHitsUnit]
      rw [ihn, hnode]
    · simp only [unitsHitGo, checkBulletHitsUnit]
      rw [ihl, hlen1]
    · intro i
      cases i with
      | zero =>
        simp only [unitsHitGo, checkBulletHitsUnit, List.getD_cons_zero]
        exact hflag
      | succ i =>
        simp only [unitsHitGo, checkBulletHitsUnit, List.getD_cons_succ]
        exact ihr i

/-- Through the unit loop of `checkBulletHitsUnits`, an alive player bullet
whose first overlapping unit (in list order) is unit `i₀` is tested by every
unit up to and including `i₀`, hits exactly unit `i₀` (which takes the
current time as hit timestamp), dies there, and is skipped by every later
unit. -/
theorem unitsHitGo_first (t : Trig) (now : ℚ) (j : ℕ) :
    ∀ (us : List Unit) (nodes : List BulletNode) (stat : GameStat) (i₀ : ℕ),
    i₀ < us.length → j < nodes.length →
    (nodes.getD j arbBulletNode).self.alive = true →
    (nodes.getD j arbBulletNode).self.owner = BulletOwner.player →
    CheckCollisionBoxes (getUnitBoundingBox t (us.getD i₀ arbUnit))
      (getBulletBoundingBox (nodes.getD j arbBulletNode).self) = true →
    (∀ i, i < i₀ →
      CheckCollisionBoxes (getUnitBoundingBox t (us.getD i arbUnit))
        (getBulletBoundingBox (nodes.getD j arbBulletNode).self) = false) →
    ((unitsHitGo t now us stat nodes).rows.getD i₀ []).getD j
      (false, false) = (true, true) ∧
    (∀ i, i < i₀ → ((unitsHitGo t now us stat nodes).rows.getD i []).getD j
      (false, false) = (true, false)) ∧
    (∀ i, i₀ < i → ((unitsHitGo t now us stat nodes).rows.getD i []).getD j
      (false, false) = (false, false)) ∧
    ((unitsHitGo t now us stat nodes).units.getD i₀ arbUnit).state.hit_time =
      now ∧
    (unitsHitGo t now us stat nodes).nodes.getD j arbBulletNode =
      killBulletNode (nodes.getD j arbBulletNode) := by
  intro us
  induction us with
  | nil =>
    intro nodes stat i₀ hi₀
    exact absurd hi₀ (by simp)
  | cons u us ih =>
    intro nodes stat i₀ hi₀ hj halive howner hov hfirst
    obtain ⟨hlen1, hlen2, hidx⟩ :=
      unitHitGo_index (getUnitBoundingBox t u) now nodes u stat
    obtain ⟨hflag, hnode⟩ := hidx j hj
    cases i₀ with
    | zero =>
      have hovu : CheckCollisionBoxes (getUnitBoundingBox t u)
          (getBulletBoundingBox (nodes.getD j arbBulletNode).self) = true := by
        rw [List.getD_cons_zero] at hov
        exact hov
      rw [if_pos ⟨halive, howner⟩, hovu] at hflag
      rw [if_pos ⟨halive, howner, hovu⟩] at hnode
      have hj' : j < (unitHitGo (getUnitBoundingBox t u) now u stat
          nodes).2.2.1.length := by rw [hlen1]; exact hj
      have hdead' : ((unitHitGo (getUnitBoundingBox t u) now u stat
          nodes).2.2.1.getD j arbBulletNode).self.alive = false := by
        rw [hnode]; rfl
      obtain ⟨ihn, ihl, ihr⟩ := unitsHitGo_dead t now j us _ _ hj' hdead'
      refine ⟨?_, ?_, ?_, ?_, ?_⟩
      · simp only [unitsHitGo, checkBulletHitsUnit, List.getD_cons_zero]
        exact hflag
      · intro i hi
        exact absurd hi (Nat.not_lt_zero i)
      · intro i hi
        obtain ⟨i', rfl⟩ : ∃ i', i = i' + 1 := ⟨i - 1, by omega⟩
        simp only [unitsHitGo, checkBulletHitsUnit, List.getD_cons_succ]
        exact ihr i'
      · simp only [unitsHitGo, checkBulletHitsUnit, List.getD_cons_zero]
        apply unitHitGo_hit_time
        refine ⟨(true, true), ?_, rfl⟩
        have hlenf : j < (unitHitGo (getUnitBoundingBox t u) now u stat
            nodes).2.2.2.length := by rw [hlen2]; exact hj
        rw [← hflag, List.getD_eq_getElem _ _ hlenf]
        exact List.getElem_mem hlenf
      · simp only [unitsHitGo, checkBulletHitsUnit]
        rw [ihn, hnode]
    | succ i₀' =>
      have hov0 : CheckCollisionBoxes (getUnitBoundingBox t u)
          (getBulletBoundingBox (nodes.getD j arbBulletNode).self) =
            false := by
        have h := hfirst 0 (Nat.succ_pos i₀')
        rw [List.getD_cons_zero] at h
        exact h
      rw [if_pos ⟨halive, howner⟩, hov0] at hflag
      rw [if_neg (fun hc => by rw [hov0] at hc; simp at hc)] at hnode
      have hj' : j < (unitHitGo (getUnitBoundingBox t u) now u stat
          nodes).2.2.1.length := by rw [hlen1]; exact hj
      have halive' : ((unitHitGo (getUnitBoundingBox t u) now u stat
          nodes).2.2.1.getD j arbBulletNode).self.alive = true := by
        rw [hnode]; exact halive
      have howner' : ((unitHitGo (getUnitBoundingBox t u) now u stat
          nodes).2.2.1.getD j arbBulletNode).self.owner =
            BulletOwner.player := by
        rw [hnode]; exact howner
      have hov' : CheckCollisionBoxes (getUnitBoundingBox t
          (us.getD i₀' arbUnit)) (getBulletBoundingBox ((unitHitGo
          (getUnitBoundingBox t u) now u stat nodes).2.2.1.getD j
          arbBulletNode).self) = true := by
        rw [hnode]
        rw [List.getD_cons_succ] at hov
        exact hov
      have hfirst' : ∀ i, i < i₀' → CheckCollisionBoxes (getUnitBoundingBox
          t (us.getD i arbUnit)) (getBulletBoundingBox ((unitHitGo
          (getUnitBoundingBox t u) now u stat nodes).2.2.1.getD j
          arbBulletNode).self) = false := by
        intro i hi
        rw [hnode]
        have h := hfirst (i + 1) (by omega)
        rw [List.getD_cons_succ] at h
        exact h
      obtain ⟨c1, c2, c3, c4, c5⟩ := ih _ _ i₀'
        (by simp only [List.length_cons] at hi₀; omega) hj' halive' howner'
        hov' hfirst'
      refine ⟨?_, ?_, ?_, ?_, ?_⟩
      · simp only [unitsHitGo, checkBulletHitsUnit, List.getD_cons_succ]
        exact c1
      · intro i hi
        cases i with
        | zero =>
          simp only [unitsHitGo, checkBulletHitsUnit, List.getD_cons_zero]
          exact hflag
        | succ i =>
          simp only [unitsHitGo, checkBulletHitsUnit, List.getD_cons_succ]
          exact c2 i (by omega)
      · intro i hi
        obtain ⟨i', rfl⟩ : ∃ i', i = i' + 1 := ⟨i - 1, by omega⟩
        simp only [unitsHitGo, checkBulletHitsUnit, List.getD_cons_succ]
        exact c3 i' (by omega)
      · simp only [unitsHitGo, checkBulletHitsUnit, List.getD_cons_succ]
        exact c4
      · simp only [unitsHitGo, checkBulletHitsUnit]
        rw [c5, hnode]

/-- Per-index characterization of the bullet loop of
`checkBulletHitsPlayer`: each node is killed exactly when it is alive,
enemy-owned and its box collides with the player box. -/
theorem playerHitGo_index (pBox : BoundingBox) (now : ℚ) :
    ∀ (nodes : List BulletNode) (p : Player) (stat : GameStat),
    (playerHitGo pBox now p stat nodes).2.2.length = nodes.length ∧
    (∀ k, k < nodes.length →
      (playerHitGo pBox now p stat nodes).2.2.getD k arbBulletNode =
        (if (nodes.getD k arbBulletNode).self.alive = true ∧
            (nodes.getD k arbBulletNode).self.owner = BulletOwner.unit ∧
            CheckCollisionBoxes pBox
              (getBulletBoundingBox (nodes.getD k arbBulletNode).self) = true
         then killBulletNode (nodes.getD k arbBulletNode)
         else nodes.getD k arbBulletNode)) := by
  intro nodes
  induction nodes with
  | nil =>
    intro p stat
    exact ⟨rfl, fun k hk => absurd hk (by simp)⟩
  | cons n rest ih =>
    intro p stat
    by_cases helig : n.self.alive = true ∧ n.self.owner = BulletOwner.unit
    · by_cases htest :
          CheckCollisionBoxes pBox (getBulletBoundingBox n.self) = true
      · obtain ⟨ih1, ih2⟩ :=
          ih { p with state := hitUnitState p.state n.self.params now }
            (addShootIntoGameStat stat)
        simp only [playerHitGo, if_pos helig, if_pos htest]
        refine ⟨by simp only [List.length_cons, ih1], ?_⟩
        intro k hk
        cases k with
        | zero =>
          rw [List.getD_cons_zero, List.getD_cons_zero,
            if_pos ⟨helig.1, helig.2, htest⟩]
        | succ k =>
          simp only [List.getD_cons_succ]
          exact ih2 k (by simp only [List.length_cons] at hk; omega)
      · obtain ⟨ih1, ih2⟩ := ih p stat
        simp only [playerHitGo, if_pos helig, if_neg htest]
        refine ⟨by simp only [List.length_cons, ih1], ?_⟩
        intro k hk
        cases k with
        | zero =>
          rw [List.getD_cons_zero, List.getD_cons_zero,
            if_neg (fun hc => htest hc.2.2)]
        | succ k =>
          simp only [List.getD_cons_succ]
          exact ih2 k (by simp only [List.length_cons] at hk; omega)
    · obtain ⟨ih1, ih2⟩ := ih p stat
      simp only [playerHitGo, if_neg helig]
      refine ⟨by simp only [List.length_cons, ih1], ?_⟩
      intro k hk
      cases k with
      | zero =>
        rw [List.getD_cons_zero, List.getD_cons_zero,
          if_neg (fun hc => helig ⟨hc.1, hc.2.1⟩)]
      | succ k =>
        simp only [List.getD_cons_succ]
        exact ih2 k (by simp only [List.length_cons] at hk; omega)

/-- If no bullet is alive, enemy-owned and colliding, the player comes out
of `checkBulletHitsPlayer`'s loop unchanged. -/
theorem playerHitGo_nohit (pBox : BoundingBox) (now : ℚ) :
    ∀ (nodes : List BulletNode) (p : Player) (stat : GameStat),
    (∀ k, k < nodes.length →
      ¬((nodes.getD k arbBulletNode).self.alive = true ∧
        (nodes.getD k arbBulletNode).self.owner = BulletOwner.unit ∧
        CheckCollisionBoxes pBox
          (getBulletBoundingBox (nodes.getD k arbBulletNode).self) = true)) →
    (playerHitGo pBox now p stat nodes).1 = p := by
  intro nodes
  induction nodes with
  | nil => intro p stat _; rfl
  | cons n rest ih =>
    intro p stat hno
    have htail : ∀ k, k < rest.length →
        ¬((rest.getD k arbBulletNode).self.alive = true ∧
          (rest.getD k arbBulletNode).self.owner = BulletOwner.unit ∧
          CheckCollisionBoxes pBox
            (getBulletBoundingBox (rest.getD k arbBulletNode).self) =
              true) := by
      intro k hk
      have h := hno (k + 1) (by simp only [List.length_cons]; omega)
      rwa [List.getD_cons_succ] at h
    by_cases helig : n.self.alive = true ∧ n.self.owner = BulletOwner.unit
    · by_cases htest :
          CheckCollisionBoxes pBox (getBulletBoundingBox n.self) = true
      · exfalso
        have h := hno 0 (Nat.succ_pos _)
        rw [List.getD_cons_zero] at h
        exact h ⟨helig.1, helig.2, htest⟩
      · simp only [playerHitGo, if_pos helig, if_neg htest]
        exact ih p stat htail
    · simp only [playerHitGo, if_neg helig]
      exact ih p stat htail

/-- If some bullet is alive, enemy-owned and colliding, the player's hit
timestamp comes out equal to the current time. -/
theorem playerHitGo_hit_time (pBox : BoundingBox) (now : ℚ) :
    ∀ (nodes : List BulletNode) (p : Player) (stat : GameStat),
    (∃ k, k < nodes.length ∧
      (nodes.getD k arbBulletNode).self.alive = true ∧
      (nodes.getD k arbBulletNode).self.owner = BulletOwner.unit ∧
      CheckCollisionBoxes pBox
        (getBulletBoundingBox (nodes.getD k arbBulletNode).self) = true) →
    (playerHitGo pBox now p stat nodes).1.state.hit_time = now := by
  intro nodes
  induction nodes with
  | nil =>
    intro p stat h
    obtain ⟨k, hk, -⟩ := h
    simp at hk
  | cons n rest ih =>
    intro p stat hex
    by_cases helig : n.self.alive = true ∧ n.self.owner = BulletOwner.unit
    · by_cases htest :
          CheckCollisionBoxes pBox (getBulletBoundingBox n.self) = true
      · simp only [playerHitGo, if_pos helig, if_pos htest]
        by_cases hrest : ∃ k, k < rest.length ∧
            (rest.getD k arbBulletNode).self.alive = true ∧
            (rest.getD k arbBulletNode).self.owner = BulletOwner.unit ∧
            CheckCollisionBoxes pBox
              (getBulletBoundingBox (rest.getD k arbBulletNode).self) = true
        · exact ih _ _ hrest
        · rw [playerHitGo_nohit pBox now rest _ _
            (fun k hk hc => hrest ⟨k, hk, hc⟩)]
          rfl
      · obtain ⟨k, hk, hc⟩ := hex
        simp only [playerHitGo, if_pos helig, if_neg htest]
        cases k with
        | zero =>
          rw [List.getD_cons_zero] at hc
          exact absurd hc.2.2 htest
        | succ k =>
          rw [List.getD_cons_succ] at hc
          exact ih p stat ⟨k, by
            simp only [List.length_cons] at hk; omega, hc⟩
    · obtain ⟨k, hk, hc⟩ := hex
      simp only [playerHitGo, if_neg helig]
      cases k with
      | zero =>
        rw [List.getD_cons_zero] at hc
        exact absurd ⟨hc.1, hc.2.1⟩ helig
      | succ k =>
        rw [List.getD_cons_succ] at hc
        exact ih p stat ⟨k, by
          simp only [List.length_cons] at hk; omega, hc⟩

set_option maxHeartbeats 1000000 in
/-- C1: in a frame's bullet-vs-target collision pass, an alive, owner-eligible
bullet whose box overlaps some target's box is tested by every target up to
its first overlapping target `i₀` in pool order, registers exactly one
damage application (at `i₀`), sets that target's hit timestamp to the
current time, becomes dead, and is tested by no later target; on a
single-target, single-bullet pass the target receives the full damage
packet; and the enemy-bullet-vs-player pass kills the hitting bullet and
stamps the player's hit time the same way. -/
theorem checkBulletHits_first_target
    (t : Trig) (units : List Unit) (nodes : List BulletNode) (stat : GameStat)
    (now : ℚ) (j i₀ : ℕ)
    (hj : j < nodes.length)
    (halive : (nodes.getD j arbBulletNode).self.alive = true)
    (howner : (nodes.getD j arbBulletNode).self.owner = BulletOwner.player)
    (hi₀ : i₀ < units.length)
    (hov : CheckCollisionBoxes (getUnitBoundingBox t (units.getD i₀ arbUnit))
      (getBulletBoundingBox (nodes.getD j arbBulletNode).self) = true)
    (hfirst : ∀ i, i < i₀ →
      CheckCollisionBoxes (getUnitBoundingBox t (units.getD i arbUnit))
        (getBulletBoundingBox (nodes.getD j arbBulletNode).self) = false)
    (u1 : Unit) (n1 : BulletNode)
    (halive1 : n1.self.alive = true)
    (howner1 : n1.self.owner = BulletOwner.player)
    (hov1 : CheckCollisionBoxes (getUnitBoundingBox t u1)
      (getBulletBoundingBox n1.self) = true)
    (p : Player) (pnodes : List BulletNode) (pstat : GameStat) (k : ℕ)
    (hk : k < pnodes.length)
    (hpalive : (pnodes.getD k arbBulletNode).self.alive = true)
    (hpowner : (pnodes.getD k arbBulletNode).self.owner = BulletOwner.unit)
    (hpov : CheckCollisionBoxes (getPlayerBoundingBox t p)
      (getBulletBoundingBox (pnodes.getD k arbBulletNode).self) = true) :
    ((unitsHitGo t now units stat nodes).rows.getD i₀ []).getD j
      (false, false) = (true, true) ∧
    (∀ i, i < units.length →
      ((((unitsHitGo t now units stat nodes).rows.getD i []).getD j
        (false, false)).2 = true ↔ i = i₀)) ∧
    (∀ i, i₀ < i → ((unitsHitGo t now units stat nodes).rows.getD i []).getD
      j (false, false) = (false, false)) ∧
    ((unitsHitGo t now units stat nodes).units.getD i₀ arbUnit).state.hit_time
      = now ∧
    (unitsHitGo t now units stat nodes).nodes.getD j arbBulletNode =
      killBulletNode (nodes.getD j arbBulletNode) ∧
    ((unitsHitGo t now units stat nodes).nodes.getD j
      arbBulletNode).self.alive = false ∧
    (unitsHitGo t now [u1] stat [n1]).units =
      [{ u1 with state := hitUnitState u1.state n1.self.params now }] ∧
    (unitsHitGo t now [u1] stat [n1]).nodes = [killBulletNode n1] ∧
    (unitsHitGo t now [u1] stat [n1]).stat = addHitIntoGameStat stat ∧
    (playerHitGo (getPlayerBoundingBox t p) now p pstat pnodes).2.2.getD k
      arbBulletNode = killBulletNode (pnodes.getD k arbBulletNode) ∧
    (playerHitGo (getPlayerBoundingBox t p) now p pstat
      pnodes).1.state.hit_time = now := by
  obtain ⟨c1, c2, c3, c4, c5⟩ := unitsHitGo_first t now j units nodes stat
    i₀ hi₀ hj halive howner hov hfirst
  obtain ⟨plen, pidx⟩ :=
    playerHitGo_index (getPlayerBoundingBox t p) now pnodes p pstat
  have hone : unitHitGo (getUnitBoundingBox t u1) now u1 stat [n1] =
      ({ u1 with state := hitUnitState u1.state n1.self.params now },
        addHitIntoGameStat stat, [killBulletNode n1], [(true, true)]) := by
    simp [unitHitGo, halive1, howner1, hov1]
  refine ⟨c1, ?_, c3, c4, c5, ?_, ?_, ?_, ?_, ?_, ?_⟩
  · intro i hi
    constructor
    · intro hflag2
      by_contra hne
      rcases Nat.lt_or_ge i i₀ with hlt | hge
      · rw [c2 i hlt] at hflag2
        exact absurd hflag2 (by simp)
      · have hgt : i₀ < i := by omega
        rw [c3 i hgt] at hflag2
        exact absurd hflag2 (by simp)
    · intro h
      rw [h, c1]
  · rw [c5]
    rfl
  · simp [unitsHitGo, checkBulletHitsUnit, hone]
  · simp [unitsHitGo, checkBulletHitsUnit, hone]
  · simp [unitsHitGo, checkBulletHitsUnit, hone]
  · rw [pidx k hk, if_pos ⟨hpalive, hpowner, hpov⟩]
  · exact playerHitGo_hit_time (getPlayerBoundingBox t p) now pnodes p pstat
      ⟨k, hk, hpalive, hpowner, hpov⟩

set_option maxHeartbeats 2000000 in
/-- Witness for C1: one enemy unit at the origin and one player bullet at
the origin (overlap holds), plus the mirrored player scenario with one
enemy bullet. -/
theorem checkBulletHits_first_target_witness :
    ((unitsHitGo trigConst 5 [arbUnit] newGameStat
      [⟨scenarioBulletA, 1⟩]).rows.getD 0 []).getD 0 (false, false) =
      (true, true) :=
  (checkBulletHits_first_target trigConst [arbUnit] [⟨scenarioBulletA, 1⟩]
    newGameStat 5 0 0
    (by decide) rfl rfl (by decide)
    (by norm_num [CheckCollisionBoxes, getUnitBoundingBox, arbUnit,
      getBulletBoundingBox, scenarioBulletA, newBullet, newBulletPosition,
      newBulletSize, MatrixTranslate, MatrixIdentity, Vector3Transform,
      vmin, vmax, min_def, max_def])
    (fun i hi => absurd hi (Nat.not_lt_zero i))
    arbUnit ⟨scenarioBulletA, 1⟩ rfl rfl
    (by norm_num [CheckCollisionBoxes, getUnitBoundingBox, arbUnit,
      getBulletBoundingBox, scenarioBulletA, newBullet, newBulletPosition,
      newBulletSize, MatrixTranslate, MatrixIdentity, Vector3Transform,
      vmin, vmax, min_def, max_def])
    scenarioPlayer [⟨scenarioEnemyBullet, 1⟩] newGameStat 0
    (by decide) rfl rfl
    (by norm_num [CheckCollisionBoxes, getPlayerBoundingBox, scenarioPlayer,
      getBulletBoundingBox, scenarioEnemyBullet, newBullet,
      newBulletPosition, newBulletSize, MatrixRotateXYZ, MatrixIdentity,
      trigConst, MatrixMultiply, Vector3Transform, vadd, vmin, vmax,
      min_def, max_def])).1

end Ceelaxy
